import Mathlib

/-!
Shallow embedding of the `dbx` session manager (Go sources under
`internal/session` and `internal/ui`) together with proofs of the spec's
claims about it.  Go `int` values are modelled as `Int`, Go `time.Duration`
as `Int` nanoseconds, Go maps as association lists with unique keys, and
the injected probe seams (`portAvailableFn`) as function parameters.
-/

namespace Dbx

/-- Session lifecycle states (`SessionState` constants in `types.go`). -/
inductive SessionState where
  | starting
  | running
  | stopping
  | stopped
  | error
deriving DecidableEq, Repr

/-- `NewSessionKey` renders the pair as `service/env`. -/
def newSessionKey (service env : String) : String :=
  service ++ "/" ++ env

/-- The ring buffer of `logs.go`: fixed slice, write head, element count. -/
structure RingBuffer where
  buf : List String
  head : Nat
  count : Nat
deriving Repr, DecidableEq

/-- `DefaultRingBufferLines` from `logs.go`. -/
def defaultRingBufferLines : Int := 500

/-- `NewRingBuffer`: non-positive capacity falls back to the default. -/
def newRingBuffer (capacity : Int) : RingBuffer :=
  let c := if capacity ≤ 0 then defaultRingBufferLines else capacity
  { buf := List.replicate c.toNat "", head := 0, count := 0 }

/-- `RingBuffer.Append`: store one line at the head, evicting the oldest. -/
def RingBuffer.append (r : RingBuffer) (line : String) : RingBuffer :=
  if r.buf.length = 0 then r
  else
    { buf := r.buf.set r.head line
      head := (r.head + 1) % r.buf.length
      count := if r.count < r.buf.length then r.count + 1 else r.count }

/-- `RingBuffer.Last`: the last `n` lines ordered oldest to newest.
In Go the start index is `(r.head - n + len) % len`; with `0 < n ≤ len`
and `head < len` that equals `(len + head - n) % len` over `Nat`. -/
def RingBuffer.last (r : RingBuffer) (n : Int) : List String :=
  if n ≤ 0 then []
  else if r.count = 0 then []
  else
    let len := r.buf.length
    let k := min n.toNat r.count
    let start := (len + r.head - k) % len
    (List.range k).map (fun i => r.buf.getD ((start + i) % len) "")

/-- Appending a whole sequence of lines in order. -/
def RingBuffer.appendAll (r : RingBuffer) (xs : List String) : RingBuffer :=
  xs.foldl RingBuffer.append r

/-- The `k` most recent elements of a list, in order. -/
def takeLast (k : Nat) (xs : List String) : List String :=
  xs.drop (xs.length - k)

/-- A subscriber channel (`chan string` with a fixed buffer).  `pending`
holds lines sent but not yet received; `consumed` is ghost state recording
the lines the reader has already taken, used to state ordering claims. -/
structure Chan where
  cap : Nat
  pending : List String
  consumed : List String
deriving Repr, DecidableEq

/-- Non-blocking send (`select { case ch <- line: default: }`): the line is
enqueued only when the buffer has spare capacity, otherwise dropped. -/
def chanTrySend (c : Chan) (line : String) : Chan :=
  if c.pending.length < c.cap then { c with pending := c.pending ++ [line] } else c

/-- The `Session` record of `types.go`.  The child handle `cmd` is modelled
by `hasCmd` (`cmd != nil && cmd.Process != nil`); the cancellation handle
carries no state.  `startTime` is an absolute timestamp in nanoseconds. -/
structure Session where
  key : String
  service : String
  env : String
  bind : String
  localPort : Int
  remoteHost : String
  remotePort : Int
  targetInstanceID : String
  region : String
  profile : String
  pid : Int
  state : SessionState
  startTime : Int
  lastError : String
  hasCmd : Bool
  logBuf : RingBuffer
  subscribers : List (Nat × Chan)
  nextSubscriberID : Nat
deriving Repr, DecidableEq

/-- `NewSession` from `types.go`. -/
def newSession (service env : String) : Session :=
  { key := newSessionKey service env
    service := service
    env := env
    bind := ""
    localPort := 0
    remoteHost := ""
    remotePort := 0
    targetInstanceID := ""
    region := ""
    profile := ""
    pid := 0
    state := SessionState.starting
    startTime := 0
    lastError := ""
    hasCmd := false
    logBuf := newRingBuffer defaultRingBufferLines
    subscribers := []
    nextSubscriberID := 0 }

/-- `Session.AppendLog`: append to the ring buffer and fan the line out to
every subscriber with a non-blocking send. -/
def Session.appendLog (s : Session) (line : String) : Session :=
  { s with
    logBuf := s.logBuf.append line
    subscribers := s.subscribers.map fun p => (p.1, chanTrySend p.2 line) }

/-- `Session.LastLogs`. -/
def Session.lastLogs (s : Session) (n : Int) : List String :=
  s.logBuf.last n

/-- `Session.SubscribeLogs`: a fresh monotonic id and a fresh buffered
channel; negative buffers are clamped to zero. -/
def Session.subscribeLogs (s : Session) (buffer : Int) : Nat × Session :=
  let b := if buffer < 0 then (0 : Int) else buffer
  let id := s.nextSubscriberID + 1
  (id, { s with
          nextSubscriberID := id
          subscribers :=
            s.subscribers ++ [(id, { cap := b.toNat, pending := [], consumed := [] })] })

/-- `Session.UnsubscribeLogs`: remove the id (closing its channel); unknown
ids are ignored. -/
def Session.unsubscribeLogs (s : Session) (id : Nat) : Session :=
  { s with subscribers := s.subscribers.filter fun p => p.1 ≠ id }

/-- `Session.CloseLogSubscribers`. -/
def Session.closeLogSubscribers (s : Session) : Session :=
  { s with subscribers := [] }

/-- `StartOptions` from `manager.go`; `startupTimeout` in nanoseconds. -/
structure StartOptions where
  service : String
  env : String
  bind : String
  localPort : Int
  portMin : Int
  portMax : Int
  targetInstanceID : String
  remoteHost : String
  remotePort : Int
  region : String
  profile : String
  startupTimeout : Int
deriving Repr, DecidableEq

/-- The manager's session map (`map[SessionKey]*Session`) as an association
list with unique keys; `none` stands for a stored nil pointer. -/
abbrev SessionMap := List (String × Option Session)

def mapLookup (m : SessionMap) (k : String) : Option (Option Session) :=
  match m.find? (fun p => p.1 == k) with
  | some p => some p.2
  | none => none

def mapErase (m : SessionMap) (k : String) : SessionMap :=
  m.filter fun p => p.1 ≠ k

def mapInsert (m : SessionMap) (k : String) (s : Session) : SessionMap :=
  mapErase m k ++ [(k, some s)]

/-- `Manager`: the session map plus configured defaults (durations in
nanoseconds). -/
structure ManagerState where
  sessions : SessionMap
  defaultPortMin : Int
  defaultPortMax : Int
  defaultStartWait : Int
  defaultStopWait : Int
deriving DecidableEq

/-- `NewManager` with the constants of `manager.go`:
range 5500–5999, startup timeout 15 s, stop timeout 5 s. -/
def newManager : ManagerState :=
  { sessions := []
    defaultPortMin := 5500
    defaultPortMax := 5999
    defaultStartWait := 15 * 1000000000
    defaultStopWait := 5 * 1000000000 }

/-- The injected probe seam `portAvailableFn`: `none` means the bind probe
succeeded, `some e` is the error it returned. -/
def Probe := String → Int → Option String

/-- `Manager.portReservedLocked`: some non-nil, non-Stopped session in the
map holds `(bind, port)`. -/
def ManagerState.portReservedLocked (m : ManagerState) (bind : String) (port : Int) : Bool :=
  m.sessions.any fun p =>
    match p.2 with
    | none => false
    | some s => s.bind == bind && s.localPort == port && s.state != SessionState.stopped

/-- The ascending scan loop of `selectPortLocked`, with explicit fuel
`(max - min + 1)`: skip reserved ports, first probe success wins. -/
def scanPorts (avail : Probe) (m : ManagerState) (bind : String) : Int → Nat → Option Int
  | _, 0 => none
  | port, fuel + 1 =>
    if m.portReservedLocked bind port then scanPorts avail m bind (port + 1) fuel
    else
      match avail bind port with
      | none => some port
      | some _ => scanPorts avail m bind (port + 1) fuel

/-- The effective scan lower bound (`min == 0` falls back to the manager
default, lines 358–361). -/
def ManagerState.effectivePortMin (m : ManagerState) (opts : StartOptions) : Int :=
  if opts.portMin == 0 then m.defaultPortMin else opts.portMin

/-- The effective scan upper bound (lines 362–365). -/
def ManagerState.effectivePortMax (m : ManagerState) (opts : StartOptions) : Int :=
  if opts.portMax == 0 then m.defaultPortMax else opts.portMax

/-- `Manager.selectPortLocked`. -/
def ManagerState.selectPortLocked (avail : Probe) (m : ManagerState) (opts : StartOptions) :
    Except String Int :=
  if opts.localPort > 0 then
    if m.portReservedLocked opts.bind opts.localPort then
      let p := opts.localPort
      Except.error s!"requested port {p} already used by another session"
    else
      match avail opts.bind opts.localPort with
      | some e => Except.error e
      | none => Except.ok opts.localPort
  else
    let pmin := m.effectivePortMin opts
    let pmax := m.effectivePortMax opts
    if pmin > pmax then
      Except.error s!"invalid port range {pmin}-{pmax}"
    else
      match scanPorts avail m opts.bind pmin ((pmax - pmin).toNat + 1) with
      | some p => Except.ok p
      | none =>
        let b := opts.bind
        Except.error s!"no free port available on {b} in range {pmin}-{pmax}"

/-- The validation prologue of `Manager.Start` (lines 88–93): the two
`InvalidArgs` errors, returned before the session key is formed. -/
def validateStartOptions (opts : StartOptions) : Option String :=
  if opts.service == "" || opts.env == "" then
    some "service and env are required"
  else if opts.targetInstanceID == "" || opts.remoteHost == "" || opts.remotePort == 0 then
    some "target_instance_id, remote_host and remote_port are required"
  else none

/-- The defaulting prologue of `Manager.Start` (lines 94–99): empty bind
becomes `127.0.0.1`, non-positive startup timeout becomes the manager
default. -/
def ManagerState.normalizeStartOptions (m : ManagerState) (opts : StartOptions) : StartOptions :=
  let o1 := if opts.bind == "" then { opts with bind := "127.0.0.1" } else opts
  if o1.startupTimeout ≤ 0 then { o1 with startupTimeout := m.defaultStartWait } else o1

/-- The `Session` value `Manager.Start` builds before inserting it
(lines 119–128). -/
def createdSession (opts : StartOptions) (now : Int) (port : Int) : Session :=
  { newSession opts.service opts.env with
    bind := opts.bind
    localPort := port
    remoteHost := opts.remoteHost
    remotePort := opts.remotePort
    targetInstanceID := opts.targetInstanceID
    region := opts.region
    profile := opts.profile
    startTime := now
    state := SessionState.starting }

/-- Port allocation and insertion of the new `Starting` session, after the
existing-entry check (`Manager.Start` lines 113–130).  Runs on the map as
left by the eviction step.  On failure the map is returned unchanged. -/
def ManagerState.startAllocAndInsert (avail : Probe) (m : ManagerState) (opts : StartOptions)
    (now : Int) (key : String) : Except String Session × ManagerState :=
  match m.selectPortLocked avail opts with
  | Except.error e => (Except.error s!"{key}: failed to allocate local port: {e}", m)
  | Except.ok port =>
    let s := createdSession opts now port
    (Except.ok s, { m with sessions := mapInsert m.sessions key s })

/-- The whole critical section of `Manager.Start` (lines 103–130): the
existing-entry check with eviction of nil / `Stopped` entries, then port
selection and insertion, all under one lock. -/
def ManagerState.startLockSection (avail : Probe) (m : ManagerState) (opts : StartOptions)
    (now : Int) : Except String Session × ManagerState :=
  let key := newSessionKey opts.service opts.env
  match mapLookup m.sessions key with
  | some (some s) =>
    if s.state == SessionState.stopped then
      ManagerState.startAllocAndInsert avail
        { m with sessions := mapErase m.sessions key } opts now key
    else (Except.error s!"{key}: session already exists", m)
  | some none =>
    ManagerState.startAllocAndInsert avail
      { m with sessions := mapErase m.sessions key } opts now key
  | none => ManagerState.startAllocAndInsert avail m opts now key

/-- Apply `f` to the session stored at `key` (a field mutation made while
holding the pointer looked up under the lock). -/
def updateSession (m : ManagerState) (key : String) (f : Session → Session) : ManagerState :=
  { m with
    sessions := m.sessions.map fun p => if p.1 == key then (p.1, p.2.map f) else p }

/-- `Manager.failStart`. -/
def ManagerState.failStart (m : ManagerState) (key : String) (err : String) : ManagerState :=
  updateSession m key fun s => { s with state := SessionState.error, lastError := err }

/-- `Manager.removeSessionLocked`: the removed object is marked `Stopped`
and its subscribers closed, then the entry is deleted; the map effect is
deletion. -/
def ManagerState.removeSessionLocked (m : ManagerState) (key : String) : ManagerState :=
  { m with sessions := mapErase m.sessions key }

/-- `Manager.waitProcess` after `cmd.Wait` returns: a `Stopping` session is
removed cleanly, otherwise an exit line is appended first; in both cases
the entry is deleted and subscribers closed. -/
def ManagerState.waitProcessExit (m : ManagerState) (key : String) (exitLine : String) :
    ManagerState :=
  match mapLookup m.sessions key with
  | some (some s) =>
    if s.state == SessionState.stopping then m.removeSessionLocked key
    else ((updateSession m key fun t => t.appendLog exitLine).removeSessionLocked key)
  | _ => m

/-- One line scanned by an output pump (`Manager.pipeLogs`). -/
def ManagerState.appendLogLine (m : ManagerState) (key : String) (line : String) : ManagerState :=
  updateSession m key fun s => s.appendLog line

/-- `Manager.LastLogs`. -/
def ManagerState.lastLogs (m : ManagerState) (key : String) (n : Int) :
    Except String (List String) :=
  match mapLookup m.sessions key with
  | some (some s) => Except.ok (s.lastLogs n)
  | _ => Except.error s!"{key}: session not found"

/-- `Manager.SubscribeLogs`. -/
def ManagerState.subscribeLogs (m : ManagerState) (key : String) (buffer : Int) :
    Except String (Nat × ManagerState) :=
  match mapLookup m.sessions key with
  | some (some s) =>
    Except.ok ((s.subscribeLogs buffer).1,
      updateSession m key fun t => (t.subscribeLogs buffer).2)
  | _ => Except.error s!"{key}: session not found"

/-- `Manager.UnsubscribeLogs`: id 0 and missing sessions are ignored. -/
def ManagerState.unsubscribeLogs (m : ManagerState) (key : String) (id : Nat) : ManagerState :=
  if id == 0 then m
  else
    match mapLookup m.sessions key with
    | some (some _) => updateSession m key fun s => s.unsubscribeLogs id
    | _ => m

/-- Signals the platform adapter delivers to the child's process group. -/
inductive ProcSignal where
  | interrupt
  | kill
deriving DecidableEq, Repr

/-- Oracle for the blocking waits inside `Manager.Stop`: whether the
process-wait task flipped the session to `Stopped` within each window and
whether `portAvailable` succeeded within each release window. -/
structure StopTiming where
  stoppedWithinStopWait : Bool
  portReleasedWithinStopWait : Bool
  stoppedWithinKillWait : Bool
  portReleasedWithinKillWait : Bool
deriving Repr, DecidableEq

/-- `Manager.Stop`: the result error (if any), the ordered list of signals
sent to the child, and the map as left by Stop's own lock section (the
transition to `Stopped` and removal are performed concurrently by
`waitProcess` and are separate steps).  Signal delivery is modelled as
succeeding, as the platform adapters treat an already-exited process as
success.  The nil-entry branch is unreachable (the manager never stores a
nil session; the Go code would dereference nil there). -/
def ManagerState.stopRun (m : ManagerState) (key : String) (t : StopTiming) :
    Option String × List ProcSignal × ManagerState :=
  match mapLookup m.sessions key with
  | none => (some s!"{key}: session not found", [], m)
  | some none => (none, [], m)
  | some (some s) =>
    if s.state == SessionState.stopped then
      (none, [], { m with sessions := mapErase m.sessions key })
    else if s.state == SessionState.error then
      -- also closes the removed object's subscribers
      (none, [], { m with sessions := mapErase m.sessions key })
    else
      let m1 :=
        if s.state != SessionState.stopping then
          updateSession m key fun u => { u with state := SessionState.stopping }
        else m
      if !s.hasCmd then (none, [], m1.removeSessionLocked key)
      else
        let released1 := decide (s.localPort ≤ 0) || t.portReleasedWithinStopWait
        let released2 := decide (s.localPort ≤ 0) || t.portReleasedWithinKillWait
        let bind := s.bind
        let port := s.localPort
        if t.stoppedWithinStopWait then
          if released1 then (none, [ProcSignal.interrupt], m1)
          else
            (some s!"{key}: process stopped but local port {bind}:{port} is still in use",
              [ProcSignal.interrupt], m1)
        else if !t.stoppedWithinKillWait then
          (some s!"{key}: session did not stop within timeout",
            [ProcSignal.interrupt, ProcSignal.kill], m1)
        else if released2 then (none, [ProcSignal.interrupt, ProcSignal.kill], m1)
        else
          (some s!"{key}: process stopped but local port {bind}:{port} is still in use",
            [ProcSignal.interrupt, ProcSignal.kill], m1)

/-- `BuildSSMPortForwardArgs` from `aws_command.go`: the argv vector passed
to `exec.CommandContext` (no shell involved). -/
def buildSSMPortForwardArgs (targetInstanceID remoteHost : String)
    (remotePort localPort : Int) (region profile : String) : List String :=
  let rp := toString remotePort
  let lp := toString localPort
  let args :=
    ["ssm", "start-session",
     "--target", targetInstanceID,
     "--document-name", "AWS-StartPortForwardingSessionToRemoteHost",
     "--parameters",
     s!"host=[\"{remoteHost}\"],portNumber=[\"{rp}\"],localPortNumber=[\"{lp}\"]"]
  let args := if region ≠ "" then args ++ ["--region", region] else args
  if profile ≠ "" then args ++ ["--profile", profile] else args

/-- `Manager.startErrorWithLogs`: decorate a start error with the key and
up to the last 20 captured log lines. -/
def ManagerState.startErrorWithLogs (m : ManagerState) (key : String) (startErr : String) :
    String :=
  let logs :=
    match mapLookup m.sessions key with
    | some (some s) => s.lastLogs 20
    | _ => []
  if logs.length == 0 then s!"{key}: failed to start session: {startErr}"
  else
    let joined := String.intercalate "\n" logs
    s!"{key}: failed to start session: {startErr}\nrecent logs:\n{joined}"

/-- The observation that ends `Manager.waitUntilReady`'s polling loop. -/
inductive ReadyObservation where
  | timedOut
  | sessionGone
  | sessionError (lastErr : String)
  | sessionStopped
deriving Repr, DecidableEq

/-- The error `Manager.waitUntilReady` returns for each terminal
observation (lines 394–433). -/
def readinessError (key : String) : ReadyObservation → String
  | ReadyObservation.timedOut => s!"{key}: timed out waiting for local port readiness"
  | ReadyObservation.sessionGone => s!"{key}: session no longer exists"
  | ReadyObservation.sessionError lastErr =>
    if lastErr == "" then s!"{key}: aws process exited before readiness"
    else s!"{key}: {lastErr}"
  | ReadyObservation.sessionStopped => s!"{key}: session stopped before readiness"

/-- The error paths of `Manager.Start` that lie after the key is formed:
port allocation (line 116), the pipe and spawn failures (lines 144–167,
which pass the raw error to `startErrorWithLogs`), and readiness failure
(lines 181–188, where a failing cleanup `Stop` appends a second line). -/
inductive StartFailure where
  | allocFailed (e : String)
  | stdoutPipeFailed (e : String)
  | stderrPipeFailed (e : String)
  | spawnFailed (e : String)
  | notReady (o : ReadyObservation) (cleanupErr : Option String)
deriving Repr

/-- The error message `Manager.Start` returns for each post-validation
failure, evaluated against the map state read by `startErrorWithLogs`. -/
def ManagerState.startFailureMessage (m : ManagerState) (key : String) : StartFailure → String
  | StartFailure.allocFailed e => s!"{key}: failed to allocate local port: {e}"
  | StartFailure.stdoutPipeFailed e => m.startErrorWithLogs key e
  | StartFailure.stderrPipeFailed e => m.startErrorWithLogs key e
  | StartFailure.spawnFailed e => m.startErrorWithLogs key e
  | StartFailure.notReady o cleanupErr =>
    let base := m.startErrorWithLogs key (readinessError key o)
    match cleanupErr with
    | none => base
    | some stopErr => s!"{base}\ncleanup error: {stopErr}"

/-- One atomic mutation of the manager's shared state: every write to the
session map in `manager.go`/`logs.go` happens in one of these critical
sections. -/
inductive MStep (avail : Probe) : ManagerState → ManagerState → Prop where
  | startOk (m : ManagerState) (opts : StartOptions) (now : Int) (s : Session)
      (m' : ManagerState) :
      m.startLockSection avail opts now = (Except.ok s, m') → MStep avail m m'
  | startErr (m : ManagerState) (opts : StartOptions) (now : Int) (e : String)
      (m' : ManagerState) :
      m.startLockSection avail opts now = (Except.error e, m') → MStep avail m m'
  | setProcInfo (m : ManagerState) (key : String) (pid : Int) :
      MStep avail m (updateSession m key fun s => { s with hasCmd := true, pid := pid })
  | failStart (m : ManagerState) (key err : String) :
      MStep avail m (m.failStart key err)
  | removeSession (m : ManagerState) (key : String) :
      MStep avail m (m.removeSessionLocked key)
  | setRunning (m : ManagerState) (key : String) :
      MStep avail m (updateSession m key fun s => { s with state := SessionState.running })
  | stop (m : ManagerState) (key : String) (t : StopTiming) :
      MStep avail m (m.stopRun key t).2.2
  | processExit (m : ManagerState) (key exitLine : String) :
      MStep avail m (m.waitProcessExit key exitLine)
  | appendLine (m : ManagerState) (key line : String) :
      MStep avail m (m.appendLogLine key line)
  | subscribe (m : ManagerState) (key : String) (buffer : Int) (id : Nat)
      (m' : ManagerState) :
      m.subscribeLogs key buffer = Except.ok (id, m') → MStep avail m m'
  | unsubscribe (m : ManagerState) (key : String) (id : Nat) :
      MStep avail m (m.unsubscribeLogs key id)

/-- Manager states reachable from `NewManager`. -/
def MReachable (avail : Probe) (m : ManagerState) : Prop :=
  Relation.ReflTransGen (MStep avail) newManager m

/-- Well-formedness of the session map: keys are unique and every stored
entry is a non-nil session that is not `Stopped` (terminal sessions are
deleted in the same critical section that marks them). -/
def entriesWF (m : ManagerState) : Prop :=
  (m.sessions.map Prod.fst).Nodup ∧
    ∀ p ∈ m.sessions, ∃ s, p.2 = some s ∧ s.state ≠ SessionState.stopped

/-- No two stored sessions share a `(bind, local port)` pair. -/
def noPortClash (m : ManagerState) : Prop :=
  m.sessions.Pairwise fun p q => ∀ s1 s2, p.2 = some s1 → q.2 = some s2 →
    s1.bind = s2.bind → s1.localPort ≠ s2.localPort

/-- The inductive invariant of the manager. -/
def MInv (m : ManagerState) : Prop := entriesWF m ∧ noPortClash m

/-- Invariant I1 as the spec states it: no two sessions present in the map
whose state is not `Stopped` share the same `(bind, local port)` pair. -/
def invariantI1 (m : ManagerState) : Prop :=
  m.sessions.Pairwise fun p q => ∀ s1 s2, p.2 = some s1 → q.2 = some s2 →
    s1.state ≠ SessionState.stopped → s2.state ≠ SessionState.stopped →
    s1.bind = s2.bind → s1.localPort ≠ s2.localPort

/-- A reader takes the oldest buffered line off a channel. -/
def Chan.consumeOne (c : Chan) : Chan :=
  match c.pending with
  | [] => c
  | line :: rest => { c with pending := rest, consumed := c.consumed ++ [line] }

/-- One subscriber's reader takes a line (a receive on its channel). -/
def Session.consumeOne (s : Session) (id : Nat) : Session :=
  { s with
    subscribers := s.subscribers.map fun p => if p.1 == id then (p.1, p.2.consumeOne) else p }

/-- Events on one session's log state, paired with the trace of lines
appended so far: appends, subscription management, and receives. -/
inductive LogStep : Session × List String → Session × List String → Prop where
  | append (s : Session) (tr : List String) (line : String) :
      LogStep (s, tr) (s.appendLog line, tr ++ [line])
  | subscribe (s : Session) (tr : List String) (buffer : Int) :
      LogStep (s, tr) ((s.subscribeLogs buffer).2, tr)
  | unsubscribe (s : Session) (tr : List String) (id : Nat) :
      LogStep (s, tr) (s.unsubscribeLogs id, tr)
  | consume (s : Session) (tr : List String) (id : Nat) :
      LogStep (s, tr) (s.consumeOne id, tr)

/-- A session whose subscriber channels are all empty (e.g. fresh). -/
def quiescent (s : Session) : Prop :=
  ∀ p ∈ s.subscribers, p.2.pending = [] ∧ p.2.consumed = []

/-- Log states reachable from a quiescent session and the empty trace. -/
def LogReachable (st : Session × List String) : Prop :=
  ∃ s0, quiescent s0 ∧ Relation.ReflTransGen LogStep (s0, []) st

/- ===== Dashboard (internal/ui/model.go) ===== -/

inductive Pane where
  | targets
  | sessions
  | logs
deriving DecidableEq, Repr

inductive StatusLevel where
  | info
  | success
  | warn
  | error
deriving DecidableEq, Repr

/-- The Go `Pane` constants are strings; their rendered values. -/
def Pane.str : Pane → String
  | Pane.targets => "targets"
  | Pane.sessions => "sessions"
  | Pane.logs => "logs"

structure Target where
  service : String
  env : String
  key : String
deriving DecidableEq, Repr

/-- The Bubble Tea `Model`.  `sessions` keeps the keys of the summaries of
the latest refresh snapshot; the subscription channel is modelled by its
presence.  Selections are Go `int`s. -/
structure UIModel where
  width : Int
  height : Int
  targets : List Target
  sessions : List String
  targetSelected : Int
  sessionSelected : Int
  focused : Pane
  status : String
  statusLevel : StatusLevel
  logFollow : Bool
  logLines : Int
  logKey : String
  logBuffer : List String
  logSubKey : String
  logSubID : Nat
  logSubChPresent : Bool
  logReadActive : Bool
deriving DecidableEq, Repr

/-- `NewModel` (the fields the messages touch; manager and config are
implicit in the transition functions). -/
def newUIModel (targets : List Target) : UIModel :=
  { width := 0
    height := 0
    targets := targets
    sessions := []
    targetSelected := 0
    sessionSelected := 0
    focused := Pane.targets
    status := if targets.isEmpty then "no configured targets found" else "ready"
    statusLevel := if targets.isEmpty then StatusLevel.warn else StatusLevel.info
    logFollow := false
    logLines := 50
    logKey := ""
    logBuffer := []
    logSubKey := ""
    logSubID := 0
    logSubChPresent := false
    logReadActive := false }

def emptyTarget : Target := { service := "", env := "", key := "" }

/-- `Model.cycleFocus`. -/
def UIModel.cycleFocus (m : UIModel) : UIModel :=
  match m.focused with
  | Pane.targets => { m with focused := Pane.sessions }
  | Pane.sessions => { m with focused := Pane.logs }
  | Pane.logs => { m with focused := Pane.targets }

/-- `Model.moveSelection`: shift then clamp to the pane's bounds. -/
def UIModel.moveSelection (m : UIModel) (delta : Int) : UIModel :=
  match m.focused with
  | Pane.targets =>
    if m.targets.isEmpty then { m with targetSelected := 0 }
    else
      let t := m.targetSelected + delta
      let t := if t < 0 then 0 else t
      let t := if t ≥ (m.targets.length : Int) then (m.targets.length : Int) - 1 else t
      { m with targetSelected := t }
  | Pane.sessions =>
    if m.sessions.isEmpty then { m with sessionSelected := 0 }
    else
      let t := m.sessionSelected + delta
      let t := if t < 0 then 0 else t
      let t := if t ≥ (m.sessions.length : Int) then (m.sessions.length : Int) - 1 else t
      { m with sessionSelected := t }
  | Pane.logs => m

/-- `Model.clampSelections`. -/
def UIModel.clampSelections (m : UIModel) : UIModel :=
  let ts :=
    if m.targets.isEmpty then 0
    else if m.targetSelected ≥ (m.targets.length : Int) then (m.targets.length : Int) - 1
    else m.targetSelected
  let ss :=
    if m.sessions.isEmpty then 0
    else if m.sessionSelected ≥ (m.sessions.length : Int) then (m.sessions.length : Int) - 1
    else m.sessionSelected
  { m with targetSelected := ts, sessionSelected := ss }

/-- `Model.currentTargetKey`. -/
def UIModel.currentTargetKey (m : UIModel) : String :=
  if m.targets.isEmpty then ""
  else (m.targets.getD m.targetSelected.toNat emptyTarget).key

/-- `Model.currentSessionKey`. -/
def UIModel.currentSessionKey (m : UIModel) : String :=
  if m.sessions.isEmpty then ""
  else m.sessions.getD m.sessionSelected.toNat ""

/-- `Model.currentLogKey`: the key the logs pane is implied to show. -/
def UIModel.currentLogKey (m : UIModel) : Option String :=
  match m.focused with
  | Pane.targets =>
    if m.targets.isEmpty then none
    else some (m.targets.getD m.targetSelected.toNat emptyTarget).key
  | Pane.sessions =>
    if m.sessions.isEmpty then none
    else some (m.sessions.getD m.sessionSelected.toNat "")
  | Pane.logs =>
    if !m.sessions.isEmpty then some (m.sessions.getD m.sessionSelected.toNat "")
    else if !m.targets.isEmpty then some (m.targets.getD m.targetSelected.toNat emptyTarget).key
    else none

/-- `Model.closeLogSubscription`: unsubscribe the current id (if any) and
reset the subscription fields. -/
def closeLogSubscription (st : UIModel × ManagerState) : UIModel × ManagerState :=
  let m := st.1
  let w := if st.1.logSubID ≠ 0 then st.2.unsubscribeLogs st.1.logSubKey st.1.logSubID else st.2
  ({ m with logSubKey := "", logSubID := 0, logSubChPresent := false, logReadActive := false }, w)

/-- `Model.syncLogs`: re-point the log pane at the implied key, loading the
tail and, in follow mode, moving the single subscription over. -/
def syncLogs (force : Bool) (st : UIModel × ManagerState) : UIModel × ManagerState :=
  let m := st.1
  let w := st.2
  match m.currentLogKey with
  | none =>
    let st1 := closeLogSubscription (m, w)
    ({ st1.1 with logKey := "", logBuffer := [] }, st1.2)
  | some key =>
    if !force && !m.logFollow && m.logKey == key then (m, w)
    else
      let m := { m with logKey := key }
      match w.lastLogs key m.logLines with
      | Except.error e =>
        let st1 := closeLogSubscription (m, w)
        ({ st1.1 with
            logBuffer := []
            statusLevel := StatusLevel.error
            status := s!"{key}: failed to load logs: {e}" }, st1.2)
      | Except.ok lines =>
        let m := { m with logBuffer := lines }
        if !m.logFollow then closeLogSubscription (m, w)
        else if m.logSubID ≠ 0 && m.logSubKey == key && m.logSubChPresent then (m, w)
        else
          let st1 := closeLogSubscription (m, w)
          match st1.2.subscribeLogs key 64 with
          | Except.error e =>
            ({ st1.1 with
                logSubKey := ""
                logSubID := 0
                logSubChPresent := false
                statusLevel := StatusLevel.error
                status := s!"{key}: failed to follow logs: {e}" }, st1.2)
          | Except.ok (subID, w2) =>
            ({ st1.1 with logSubKey := key, logSubID := subID, logSubChPresent := true }, w2)

/-- `Model.ensureLogReaderCmd`'s state effect: arm the single reader task. -/
def UIModel.ensureLogReader (m : UIModel) : UIModel :=
  if m.logSubID = 0 || !m.logSubChPresent || m.logReadActive then m
  else { m with logReadActive := true }

/-- `Model.handleKey`; the boolean is `tea.Quit`. -/
def handleKey (k : String) (st : UIModel × ManagerState) : (UIModel × ManagerState) × Bool :=
  let m := st.1
  let w := st.2
  if k == "q" || k == "ctrl+c" then (closeLogSubscription (m, w), true)
  else if k == "tab" then
    let m := m.cycleFocus
    let f := m.focused.str
    let m := { m with statusLevel := StatusLevel.info, status := s!"focus: {f}" }
    let st1 := syncLogs true (m, w)
    ((st1.1.ensureLogReader, st1.2), false)
  else if k == "j" || k == "down" then
    let m := m.moveSelection 1
    let st1 := syncLogs true (m, w)
    ((st1.1.ensureLogReader, st1.2), false)
  else if k == "k" || k == "up" then
    let m := m.moveSelection (-1)
    let st1 := syncLogs true (m, w)
    ((st1.1.ensureLogReader, st1.2), false)
  else if k == "c" then
    -- connectSelectedCmd dispatches Manager.Start asynchronously; its map
    -- effects arrive as manager-side steps
    if m.targets.isEmpty then
      (({ m with statusLevel := StatusLevel.warn, status := "no target selected" }, w), false)
    else
      let tk := m.currentTargetKey
      (({ m with statusLevel := StatusLevel.info, status := s!"{tk}: connecting..." }, w), false)
  else if k == "s" then
    if m.sessions.isEmpty then
      (({ m with statusLevel := StatusLevel.warn, status := "no running session selected" }, w),
        false)
    else
      let sk := m.currentSessionKey
      (({ m with statusLevel := StatusLevel.info, status := s!"{sk}: stopping..." }, w), false)
  else if k == "S" then
    (({ m with statusLevel := StatusLevel.info, status := "stopping all sessions..." }, w), false)
  else if k == "l" then
    let m := { m with logFollow := !m.logFollow }
    let m :=
      if m.logFollow then
        { m with statusLevel := StatusLevel.info, status := "log follow enabled" }
      else
        { m with statusLevel := StatusLevel.info, status := "log follow disabled" }
    let st1 := syncLogs true (m, w)
    ((st1.1.ensureLogReader, st1.2), false)
  else ((m, w), false)

/-- The messages `Model.Update` receives.  `refreshTick` carries the keys
of an (arbitrarily stale) `List()` snapshot. -/
inductive UIMsg where
  | resize (w h : Int)
  | key (k : String)
  | refreshTick (sessionKeys : List String)
  | connectResult (key endpoint : String) (err : Option String)
  | stopResult (key : String) (err : Option String)
  | stopAllResult (err : Option String)
  | logLine (key : String) (subID : Nat) (line : String) (closed : Bool)

/-- `Model.Update`; the boolean is `tea.Quit`. -/
def update (msg : UIMsg) (st : UIModel × ManagerState) : (UIModel × ManagerState) × Bool :=
  let m := st.1
  let w := st.2
  match msg with
  | UIMsg.resize wd ht => (({ m with width := wd, height := ht }, w), false)
  | UIMsg.key k => handleKey k (m, w)
  | UIMsg.refreshTick sessionKeys =>
    let m := { m with sessions := sessionKeys }
    let m := m.clampSelections
    (syncLogs false (m, w), false)
  | UIMsg.connectResult key endpoint err =>
    match err with
    | some e =>
      (({ m with statusLevel := StatusLevel.error, status := s!"{key}: connect failed: {e}" }, w),
        false)
    | none =>
      (({ m with
          statusLevel := StatusLevel.success
          status := s!"{key}: connected ({endpoint})" }, w), false)
  | UIMsg.stopResult key err =>
    match err with
    | some e =>
      (({ m with statusLevel := StatusLevel.error, status := s!"{key}: stop failed: {e}" }, w),
        false)
    | none =>
      (({ m with statusLevel := StatusLevel.success, status := s!"{key}: stopped" }, w), false)
  | UIMsg.stopAllResult err =>
    match err with
    | some e =>
      (({ m with statusLevel := StatusLevel.error, status := s!"stop all failed: {e}" }, w), false)
    | none =>
      (({ m with statusLevel := StatusLevel.success, status := "stopped all sessions" }, w), false)
  | UIMsg.logLine key subID line closed =>
    if subID == 0 || subID != m.logSubID || key != m.logSubKey then ((m, w), false)
    else if closed then
      (({ m with logSubID := 0, logSubChPresent := false, logReadActive := false }, w), false)
    else
      let buf := m.logBuffer ++ [line]
      let buf :=
        if (buf.length : Int) > defaultRingBufferLines then
          buf.drop (buf.length - defaultRingBufferLines.toNat)
        else buf
      (({ m with logBuffer := buf }, w), false)

/-- The `(map key, subscriber id)` pairs of one map entry's live
subscriber channels. -/
def subsOf (p : String × Option Session) : List (String × Nat) :=
  match p.2 with
  | some s => s.subscribers.map fun q => (p.1, q.1)
  | none => []

/-- The `(map key, subscriber id)` pairs of every live subscriber channel. -/
def subPairs (w : ManagerState) : List (String × Nat) :=
  w.sessions.flatMap subsOf

/-- Unique session-map keys. -/
def keysNodup (w : ManagerState) : Prop :=
  (w.sessions.map Prod.fst).Nodup

/-- The dashboard's subscription invariant: the manager's keys stay
unique, and either no subscriber channel is live anywhere, or exactly the
dashboard's current one `(logSubKey, logSubID)` is. -/
def dashInv (st : UIModel × ManagerState) : Prop :=
  keysNodup st.2 ∧
    (subPairs st.2 = [] ∨
      (st.1.logSubID ≠ 0 ∧ subPairs st.2 = [(st.1.logSubKey, st.1.logSubID)]))

/-- A closed-channel message is only ever delivered for a subscription that
the session side has already closed (removed from the subscriber map). -/
def msgConsistent (w : ManagerState) : UIMsg → Prop
  | UIMsg.logLine key subID _ true => (key, subID) ∉ subPairs w
  | _ => True

/-- Manager-side steps that may interleave with the dashboard: every
`MStep` except `SubscribeLogs`, which only the dashboard issues in the
`ui` command. -/
inductive EnvStep (avail : Probe) : ManagerState → ManagerState → Prop where
  | startOk (m : ManagerState) (opts : StartOptions) (now : Int) (s : Session)
      (m' : ManagerState) :
      m.startLockSection avail opts now = (Except.ok s, m') → EnvStep avail m m'
  | startErr (m : ManagerState) (opts : StartOptions) (now : Int) (e : String)
      (m' : ManagerState) :
      m.startLockSection avail opts now = (Except.error e, m') → EnvStep avail m m'
  | setProcInfo (m : ManagerState) (key : String) (pid : Int) :
      EnvStep avail m (updateSession m key fun s => { s with hasCmd := true, pid := pid })
  | failStart (m : ManagerState) (key err : String) :
      EnvStep avail m (m.failStart key err)
  | removeSession (m : ManagerState) (key : String) :
      EnvStep avail m (m.removeSessionLocked key)
  | setRunning (m : ManagerState) (key : String) :
      EnvStep avail m (updateSession m key fun s => { s with state := SessionState.running })
  | stop (m : ManagerState) (key : String) (t : StopTiming) :
      EnvStep avail m (m.stopRun key t).2.2
  | processExit (m : ManagerState) (key exitLine : String) :
      EnvStep avail m (m.waitProcessExit key exitLine)
  | appendLine (m : ManagerState) (key line : String) :
      EnvStep avail m (m.appendLogLine key line)
  | unsubscribe (m : ManagerState) (key : String) (id : Nat) :
      EnvStep avail m (m.unsubscribeLogs key id)

/-- Joint dashboard/manager transitions of the `ui` command. -/
inductive UIStep (avail : Probe) : UIModel × ManagerState → UIModel × ManagerState → Prop where
  | dispatch (st : UIModel × ManagerState) (msg : UIMsg) :
      msgConsistent st.2 msg → UIStep avail st (update msg st).1
  | world (st : UIModel × ManagerState) (w' : ManagerState) :
      EnvStep avail st.2 w' → UIStep avail st (st.1, w')

/-- Joint states reachable from a fresh dashboard over a manager none of
whose sessions has a live subscriber. -/
def UIReachable (avail : Probe) (st : UIModel × ManagerState) : Prop :=
  ∃ targets w0, subPairs w0 = [] ∧ (w0.sessions.map Prod.fst).Nodup ∧
    Relation.ReflTransGen (UIStep avail) (newUIModel targets, w0) st

end Dbx

namespace Dbx

theorem ringBuffer_appendAll_concat (r : RingBuffer) (xs : List String) (x : String) :
    r.appendAll (xs ++ [x]) = (r.appendAll xs).append x := by
  simp [RingBuffer.appendAll, List.foldl_append]

/-- State invariant of a fresh capacity-`N` buffer after appending `xs`:
the slice keeps its length, the head is the append count mod `N`, the
element count is `min |xs| N`, and every one of the last `min |xs| N`
inputs sits at its own index mod `N`. -/
def ringInv (N : Nat) (xs : List String) (r : RingBuffer) : Prop :=
  r.buf.length = N ∧ r.head = xs.length % N ∧ r.count = min xs.length N ∧
    ∀ t, xs.length - min xs.length N ≤ t → t < xs.length →
      r.buf.getD (t % N) "" = xs.getD t ""

theorem ringInv_nil (N : Nat) (hN : 0 < N) :
    ringInv N [] (newRingBuffer (N : Int)) := by
  have hNle : ¬ ((N : Int) ≤ 0) := by exact_mod_cast Nat.not_le.mpr hN
  refine ⟨?_, ?_, ?_, ?_⟩ <;>
    simp [newRingBuffer, hNle, Nat.zero_mod]

theorem ringInv_append (N : Nat) (hN : 0 < N) (xs : List String) (x : String)
    (r : RingBuffer) (h : ringInv N xs r) :
    ringInv N (xs ++ [x]) (r.append x) := by
  obtain ⟨hlen, hhead, hcount, hval⟩ := h
  have hNne : ¬ r.buf.length = 0 := by omega
  have happ : r.append x =
      { buf := r.buf.set r.head x
        head := (r.head + 1) % r.buf.length
        count := if r.count < r.buf.length then r.count + 1 else r.count } := by
    rw [RingBuffer.append, if_neg hNne]
  rw [happ]
  refine ⟨by simp [hlen], ?_, ?_, ?_⟩
  · show (r.head + 1) % r.buf.length = (xs ++ [x]).length % N
    rw [hlen, hhead]
    have hme : xs.length % N + 1 ≡ xs.length + 1 [MOD N] :=
      (Nat.mod_modEq xs.length N).add_right 1
    simp only [List.length_append, List.length_singleton]
    exact hme
  · show (if r.count < r.buf.length then r.count + 1 else r.count)
      = min (xs ++ [x]).length N
    rw [hlen, hcount]
    simp only [List.length_append, List.length_singleton]
    split <;> omega
  · intro t hlow thigh
    simp only [List.length_append, List.length_singleton] at hlow thigh
    show (r.buf.set r.head x).getD (t % N) "" = (xs ++ [x]).getD t ""
    rcases Nat.lt_or_ge t xs.length with hlt | hge
    · -- old slot: not overwritten, since `t` is within the last `N` writes
      have hne : r.head ≠ t % N := by
        rw [hhead]
        intro hmod
        have hmodeq : t ≡ xs.length [MOD N] := hmod.symm
        have hdvd : (N : Int) ∣ (xs.length : Int) - (t : Int) := hmodeq.dvd
        have hle : (N : Int) ≤ (xs.length : Int) - (t : Int) :=
          Int.le_of_dvd (by omega) hdvd
        omega
      rw [List.getD_eq_getElem?_getD, List.getElem?_set_ne hne,
        ← List.getD_eq_getElem?_getD, hval t (by omega) hlt,
        List.getD_append _ _ _ _ hlt]
    · -- the freshly written slot
      have ht : t = xs.length := by omega
      subst ht
      have hidx : xs.length % N = r.head := hhead.symm
      rw [hidx, List.getD_eq_getElem?_getD,
        List.getElem?_set_self (by rw [hlen, hhead]; exact Nat.mod_lt _ hN),
        List.getD_eq_getElem?_getD, List.getElem?_concat_length]

theorem ringInv_appendAll (N : Nat) (hN : 0 < N) (xs : List String) :
    ringInv N xs ((newRingBuffer (N : Int)).appendAll xs) := by
  induction xs using List.reverseRecOn with
  | nil => simpa [RingBuffer.appendAll] using ringInv_nil N hN
  | append_singleton ys y ih =>
    rw [ringBuffer_appendAll_concat]
    exact ringInv_append N hN ys y _ ih

theorem drop_eq_range_map (xs : List String) (j : Nat) (hj : j ≤ xs.length) :
    xs.drop j = (List.range (xs.length - j)).map (fun i => xs.getD (j + i) "") := by
  apply List.ext_getElem
  · simp
  · intro i h1 h2
    have hi : i < xs.length - j := by simpa using h2
    have hji : j + i < xs.length := by omega
    simp only [List.getElem_map, List.getElem_range]
    rw [List.getElem_drop, List.getD_eq_getElem _ _ hji]

theorem ringBuffer_last_of_inv (N : Nat) (hN : 0 < N) (xs : List String)
    (r : RingBuffer) (h : ringInv N xs r) (n : Nat) (hn : 0 < n) :
    r.last (n : Int) = takeLast (min n (min xs.length N)) xs := by
  obtain ⟨hlen, hhead, hcount, hval⟩ := h
  by_cases hxs : xs.length = 0
  · rw [List.length_eq_zero.mp hxs] at hcount ⊢
    simp at hcount
    simp [RingBuffer.last, hcount, takeLast]
  · have hcpos : 0 < r.count := by
      rw [hcount]; exact Nat.lt_min.mpr ⟨Nat.pos_of_ne_zero hxs, hN⟩
    have hnle : ¬ ((n : Int) ≤ 0) := by exact_mod_cast Nat.not_le.mpr hn
    have htoNat : ((n : Int)).toNat = n := Int.toNat_natCast n
    have hk : min ((n : Int)).toNat r.count = min n (min xs.length N) := by
      rw [htoNat, hcount]
    set k := min n (min xs.length N) with hkdef
    have hkxs : k ≤ xs.length := by omega
    have hkN : k ≤ N := by omega
    rw [RingBuffer.last]
    simp only [if_neg hnle, if_neg (by omega : ¬ r.count = 0)]
    rw [hlen, hk]
    have hstart : ∀ i, ((N + r.head - k) % N + i) % N = (xs.length - k + i) % N := by
      intro i
      have hme : (N + r.head - k) % N ≡ xs.length - k [MOD N] := by
        have h1 : (N + r.head - k) % N ≡ N + r.head - k [MOD N] :=
          Nat.mod_modEq _ N
        have h2 : N + r.head - k = (N - k) + xs.length % N := by
          rw [hhead]; omega
        have h3 : (N - k) + xs.length % N ≡ (N - k) + xs.length [MOD N] :=
          (Nat.mod_modEq xs.length N).add_left (N - k)
        have h4 : (N - k) + xs.length = N + (xs.length - k) := by omega
        have h5 : N + (xs.length - k) ≡ xs.length - k [MOD N] :=
          Nat.add_modEq_left
        calc (N + r.head - k) % N ≡ N + r.head - k [MOD N] := h1
          _ = (N - k) + xs.length % N := h2
          _ ≡ (N - k) + xs.length [MOD N] := h3
          _ = N + (xs.length - k) := h4
          _ ≡ xs.length - k [MOD N] := h5
      exact hme.add_right i
    rw [takeLast, drop_eq_range_map xs (xs.length - k) (by omega),
      (by omega : xs.length - (xs.length - k) = k)]
    apply List.map_congr_left
    intro i hi
    have hik : i < k := List.mem_range.mp hi
    rw [hstart i]
    have hmod : (xs.length - k + i) % N = (xs.length - k + i) % N := rfl
    have hlow : xs.length - min xs.length N ≤ xs.length - k + i := by omega
    have hhigh : xs.length - k + i < xs.length := by omega
    exact hval (xs.length - k + i) hlow hhigh

theorem toString_string (s : String) : toString s = s := rfl

theorem startAllocAndInsert_ok (avail : Probe) (m : ManagerState) (opts : StartOptions)
    (now : Int) (key : String) (s : Session) (m' : ManagerState)
    (h : m.startAllocAndInsert avail opts now key = (Except.ok s, m')) :
    ∃ port, m.selectPortLocked avail opts = Except.ok port
      ∧ s = createdSession opts now port
      ∧ m' = { m with sessions := mapInsert m.sessions key s } := by
  unfold ManagerState.startAllocAndInsert at h
  rcases hsel : m.selectPortLocked avail opts with e | port <;> rw [hsel] at h <;>
    simp only [Prod.mk.injEq] at h
  · exact absurd h.1 (by simp)
  · obtain ⟨h1, h2⟩ := h
    obtain rfl : createdSession opts now port = s := by
      simpa using h1
    exact ⟨port, rfl, rfl, h2.symm⟩

theorem startAllocAndInsert_err (avail : Probe) (m : ManagerState) (opts : StartOptions)
    (now : Int) (key : String) (e : String)
    (h : m.selectPortLocked avail opts = Except.error e) :
    m.startAllocAndInsert avail opts now key
      = (Except.error s!"{key}: failed to allocate local port: {e}", m) := by
  unfold ManagerState.startAllocAndInsert
  rw [h]

theorem startLockSection_ok (avail : Probe) (m : ManagerState) (opts : StartOptions)
    (now : Int) (s : Session) (m' : ManagerState)
    (h : m.startLockSection avail opts now = (Except.ok s, m')) :
    ∃ m1 : ManagerState,
      (m1 = m ∨ m1 = { m with
          sessions := mapErase m.sessions (newSessionKey opts.service opts.env) })
      ∧ m1.startAllocAndInsert avail opts now (newSessionKey opts.service opts.env)
          = (Except.ok s, m') := by
  unfold ManagerState.startLockSection at h
  simp only [] at h
  split at h
  · split at h
    · exact ⟨_, Or.inr rfl, h⟩
    · simp only [Prod.mk.injEq] at h
      exact absurd h.1 (by simp)
  · exact ⟨_, Or.inr rfl, h⟩
  · exact ⟨m, Or.inl rfl, h⟩

theorem ringBuffer_appendAll_last (N : Nat) (hN : 0 < N) (xs : List String)
    (n : Nat) (hn : 0 < n) :
    ((newRingBuffer (N : Int)).appendAll xs).last (n : Int)
      = takeLast (min n (min xs.length N)) xs :=
  ringBuffer_last_of_inv N hN xs _ (ringInv_appendAll N hN xs) n hn

/-- C4: for every capacity `N > 0` and sequence `xs` of appended lines,
`Last n` with `n > 0` returns the most recent `min n (min |xs| N)` lines in
insertion order (overflow evicts only the oldest); in particular appending
600 lines to a capacity-500 buffer and reading `Last 500` returns appends
101 through 600 in input order. -/
theorem claim_C4_ring_buffer_last (N : Nat) (hN : 0 < N) (xs : List String)
    (n : Nat) (hn : 0 < n) :
    ((newRingBuffer (N : Int)).appendAll xs).last (n : Int)
        = takeLast (min n (min xs.length N)) xs
      ∧ ∀ lines : List String, lines.length = 600 →
          ((newRingBuffer 500).appendAll lines).last 500 = lines.drop 100 := by
  refine ⟨ringBuffer_appendAll_last N hN xs n hn, ?_⟩
  intro lines hlen
  have h := ringBuffer_appendAll_last 500 (by norm_num) lines 500 (by norm_num)
  simp only [takeLast, hlen] at h
  norm_num at h
  exact h

/-- Witness for C4 at a concrete instance. -/
theorem claim_C4_ring_buffer_last_witness :
    ((newRingBuffer ((2 : Nat) : Int)).appendAll ["a", "b", "c"]).last ((2 : Nat) : Int)
      = ["b", "c"] := by
  rw [(claim_C4_ring_buffer_last 2 (by norm_num) ["a", "b", "c"] 2 (by norm_num)).1]
  decide

/-- C8: `BuildSSMPortForwardArgs` returns exactly the fixed argv sequence,
ports in decimal, with `--region`/`--profile` appended iff non-empty and
nothing else; it is an argv vector handed to `exec.CommandContext`, so no
shell interpolation is involved. -/
theorem claim_C8_ssm_argv (tid host : String) (rp lp : Int) (region profile : String) :
    buildSSMPortForwardArgs tid host rp lp region profile =
      ["ssm", "start-session", "--target", tid,
       "--document-name", "AWS-StartPortForwardingSessionToRemoteHost",
       "--parameters",
       "host=[\"" ++ host ++ "\"],portNumber=[\"" ++ toString rp
         ++ "\"],localPortNumber=[\"" ++ toString lp ++ "\"]"]
      ++ (if region = "" then [] else ["--region", region])
      ++ (if profile = "" then [] else ["--profile", profile]) := by
  unfold buildSSMPortForwardArgs
  by_cases hr : region = "" <;> by_cases hp : profile = "" <;>
    simp [hr, hp, String.append_assoc, toString_string]

/-- Port `p` is selectable on `bind`: not reserved by an active session
and the availability probe succeeds. -/
def portFree (avail : Probe) (m : ManagerState) (bind : String) (p : Int) : Prop :=
  m.portReservedLocked bind p = false ∧ avail bind p = none

theorem scanPorts_some_iff (avail : Probe) (m : ManagerState) (bind : String) :
    ∀ (fuel : Nat) (start p : Int),
      scanPorts avail m bind start fuel = some p ↔
        (start ≤ p ∧ p < start + (fuel : Int) ∧ portFree avail m bind p ∧
          ∀ q, start ≤ q → q < p → ¬ portFree avail m bind q) := by
  intro fuel
  induction fuel with
  | zero =>
    intro start p
    constructor
    · intro h; exact absurd h (by simp [scanPorts])
    · rintro ⟨h1, h2, -, -⟩
      exfalso
      simp only [Nat.cast_zero, add_zero] at h2
      omega
  | succ n ih =>
    intro start p
    rw [scanPorts]
    by_cases hres : m.portReservedLocked bind start = true
    · rw [if_pos hres]
      rw [ih (start + 1) p]
      have hqs : ¬ portFree avail m bind start := by
        rintro ⟨hfree, -⟩; rw [hres] at hfree; cases hfree
      constructor
      · rintro ⟨h1, h2, h3, h4⟩
        refine ⟨by omega, by push_cast at h2 ⊢; omega, h3, ?_⟩
        intro q hq1 hq2
        by_cases hq : q = start
        · subst hq; exact hqs
        · exact h4 q (by omega) hq2
      · rintro ⟨h1, h2, h3, h4⟩
        have hps : p ≠ start := fun hp => hqs (hp ▸ h3)
        refine ⟨by omega, by push_cast at h2 ⊢; omega, h3, ?_⟩
        intro q hq1 hq2
        exact h4 q (by omega) hq2
    · rw [if_neg hres]
      have hres' : m.portReservedLocked bind start = false := by
        revert hres; cases m.portReservedLocked bind start <;> simp
      cases havail : avail bind start with
      | none =>
        constructor
        · intro h
          obtain rfl : start = p := by simpa using h
          refine ⟨le_refl _, by push_cast; omega, ⟨hres', havail⟩, ?_⟩
          intro q hq1 hq2; omega
        · rintro ⟨h1, h2, h3, h4⟩
          have hp : p = start := by
            by_contra hne
            exact h4 start (le_refl _) (by omega) ⟨hres', havail⟩
          subst hp; rfl
      | some e =>
        rw [ih (start + 1) p]
        have hqs : ¬ portFree avail m bind start := by
          rintro ⟨-, hfree⟩; rw [havail] at hfree; cases hfree
        constructor
        · rintro ⟨h1, h2, h3, h4⟩
          refine ⟨by omega, by push_cast at h2 ⊢; omega, h3, ?_⟩
          intro q hq1 hq2
          by_cases hq : q = start
          · subst hq; exact hqs
          · exact h4 q (by omega) hq2
        · rintro ⟨h1, h2, h3, h4⟩
          have hps : p ≠ start := fun hp => hqs (hp ▸ h3)
          refine ⟨by omega, by push_cast at h2 ⊢; omega, h3, ?_⟩
          intro q hq1 hq2
          exact h4 q (by omega) hq2

theorem scanPorts_none_iff (avail : Probe) (m : ManagerState) (bind : String) :
    ∀ (fuel : Nat) (start : Int),
      scanPorts avail m bind start fuel = none ↔
        ∀ q, start ≤ q → q < start + (fuel : Int) → ¬ portFree avail m bind q := by
  intro fuel
  induction fuel with
  | zero =>
    intro start
    simp only [scanPorts, Nat.cast_zero, add_zero, true_iff]
    intro q h1 h2; omega
  | succ n ih =>
    intro start
    rw [scanPorts]
    by_cases hres : m.portReservedLocked bind start = true
    · rw [if_pos hres, ih (start + 1)]
      have hqs : ¬ portFree avail m bind start := by
        rintro ⟨hfree, -⟩; rw [hres] at hfree; cases hfree
      constructor
      · intro h q hq1 hq2
        by_cases hq : q = start
        · subst hq; exact hqs
        · exact h q (by omega) (by push_cast at hq2 ⊢; omega)
      · intro h q hq1 hq2
        exact h q (by omega) (by push_cast at hq2 ⊢; omega)
    · rw [if_neg hres]
      have hres' : m.portReservedLocked bind start = false := by
        revert hres; cases m.portReservedLocked bind start <;> simp
      cases havail : avail bind start with
      | none =>
        constructor
        · intro h; exact absurd h (by simp)
        · intro h
          exact absurd ⟨hres', havail⟩ (h start (le_refl _) (by push_cast; omega))
      | some e =>
        rw [ih (start + 1)]
        have hqs : ¬ portFree avail m bind start := by
          rintro ⟨-, hfree⟩; rw [havail] at hfree; cases hfree
        constructor
        · intro h q hq1 hq2
          by_cases hq : q = start
          · subst hq; exact hqs
          · exact h q (by omega) (by push_cast at hq2 ⊢; omega)
        · intro h q hq1 hq2
          exact h q (by omega) (by push_cast at hq2 ⊢; omega)

theorem find?_mapErase_self (l : SessionMap) (k : String) :
    (mapErase l k).find? (fun p => p.1 == k) = none := by
  rw [List.find?_eq_none]
  intro x hx
  have hne := (List.mem_filter.mp hx).2
  simpa using hne

theorem mapLookup_erase_self (l : SessionMap) (k : String) :
    mapLookup (mapErase l k) k = none := by
  unfold mapLookup
  rw [find?_mapErase_self]

theorem mapLookup_insert_self (l : SessionMap) (k : String) (s : Session) :
    mapLookup (mapInsert l k s) k = some (some s) := by
  unfold mapLookup mapInsert
  rw [List.find?_append, find?_mapErase_self]
  simp [List.find?]

theorem mapLookup_erase_other (l : SessionMap) (k k' : String) (h : k' ≠ k) :
    mapLookup (mapErase l k) k' = mapLookup l k' := by
  unfold mapLookup mapErase
  induction l with
  | nil => rfl
  | cons hd tl ih =>
    by_cases hk : hd.1 = k
    · have hne : ¬ ((hd.1 == k') = true) := by
        simp only [beq_iff_eq, hk]
        exact fun hh => h hh.symm
      rw [List.filter_cons_of_neg (by simp [hk]),
        @List.find?_cons_of_neg _ (fun q => q.1 == k') hd tl hne]
      exact ih
    · rw [List.filter_cons_of_pos (by simp [hk])]
      by_cases hk' : (hd.1 == k') = true
      · rw [@List.find?_cons_of_pos _ (fun q => q.1 == k') hd
            (List.filter (fun p => decide (p.1 ≠ k)) tl) hk',
          @List.find?_cons_of_pos _ (fun q => q.1 == k') hd tl hk']
      · rw [@List.find?_cons_of_neg _ (fun q => q.1 == k') hd
            (List.filter (fun p => decide (p.1 ≠ k)) tl) hk',
          @List.find?_cons_of_neg _ (fun q => q.1 == k') hd tl hk']
        exact ih

theorem mapLookup_insert_other (l : SessionMap) (k k' : String) (s : Session) (h : k' ≠ k) :
    mapLookup (mapInsert l k s) k' = mapLookup l k' := by
  have h2 : List.find? (fun p => p.1 == k') ([(k, some s)] : SessionMap) = none := by
    rw [List.find?_eq_none]
    intro x hx
    simp only [List.mem_singleton] at hx
    subst hx
    simp only [beq_iff_eq]
    exact fun hh => h hh.symm
  rw [← mapLookup_erase_other l k k' h]
  unfold mapLookup mapInsert
  rw [List.find?_append, h2, Option.or_none]

theorem mapLookup_mem (l : SessionMap) (k : String) (os : Option Session)
    (h : mapLookup l k = some os) : (k, os) ∈ l := by
  unfold mapLookup at h
  cases hf : l.find? (fun p => p.1 == k) with
  | none => rw [hf] at h; cases h
  | some p =>
    rw [hf] at h
    obtain rfl : p.2 = os := by simpa using h
    have hmem := List.mem_of_find?_eq_some hf
    have hkey : p.1 = k := by simpa using List.find?_some hf
    have hp : p = (k, p.2) := by
      rw [Prod.ext_iff]
      exact ⟨hkey, rfl⟩
    rwa [← hp]

theorem portReservedLocked_eq_false (m : ManagerState) (b : String) (port : Int)
    (h : m.portReservedLocked b port = false) :
    ∀ p ∈ m.sessions, ∀ s, p.2 = some s → s.state ≠ SessionState.stopped →
      ¬(s.bind = b ∧ s.localPort = port) := by
  unfold ManagerState.portReservedLocked at h
  rw [← Bool.not_eq_true, List.any_eq_true] at h
  push_neg at h
  intro p hp s hs hst ⟨hb, hl⟩
  have := h p hp
  rw [hs] at this
  simp only [hb, hl, beq_self_eq_true, Bool.true_and, bne_iff_ne, ne_eq] at this
  exact absurd (by simpa using hst) (by simpa using this)

theorem selectPortLocked_ok_not_reserved (avail : Probe) (m : ManagerState)
    (opts : StartOptions) (p : Int) (h : m.selectPortLocked avail opts = Except.ok p) :
    m.portReservedLocked opts.bind p = false := by
  unfold ManagerState.selectPortLocked at h
  by_cases hlp : opts.localPort > 0
  · rw [if_pos hlp] at h
    by_cases hres : m.portReservedLocked opts.bind opts.localPort = true
    · rw [if_pos hres] at h
      exact absurd h (by simp)
    · rw [if_neg hres] at h
      cases havail : avail opts.bind opts.localPort <;> rw [havail] at h
      · obtain rfl : opts.localPort = p := by simpa using h
        revert hres
        cases m.portReservedLocked opts.bind opts.localPort <;> simp
      · exact absurd h (by simp)
  · rw [if_neg hlp] at h
    simp only [] at h
    by_cases hrange : m.effectivePortMin opts > m.effectivePortMax opts
    · rw [if_pos hrange] at h
      exact absurd h (by simp)
    · rw [if_neg hrange] at h
      cases hscan : scanPorts avail m opts.bind (m.effectivePortMin opts)
          ((m.effectivePortMax opts - m.effectivePortMin opts).toNat + 1) <;>
        rw [hscan] at h
      · exact absurd h (by simp)
      · next q =>
        obtain rfl : q = p := by simpa using h
        rw [scanPorts_some_iff] at hscan
        exact hscan.2.2.1.1

theorem MInv_erase (m : ManagerState) (k : String) (h : MInv m) :
    MInv { m with sessions := mapErase m.sessions k } := by
  obtain ⟨⟨hnodup, hentries⟩, hpair⟩ := h
  have hsub : (mapErase m.sessions k).Sublist m.sessions := List.filter_sublist _
  exact ⟨⟨(hsub.map Prod.fst).nodup hnodup,
      fun p hp => hentries p (hsub.mem hp)⟩,
    hpair.sublist hsub⟩

theorem MInv_updateSession (m : ManagerState) (k : String) (f : Session → Session)
    (hbind : ∀ s, (f s).bind = s.bind) (hport : ∀ s, (f s).localPort = s.localPort)
    (hstate : ∀ s, s.state ≠ SessionState.stopped → (f s).state ≠ SessionState.stopped)
    (h : MInv m) : MInv (updateSession m k f) := by
  obtain ⟨⟨hnodup, hentries⟩, hpair⟩ := h
  have hg1 : ∀ p : String × Option Session,
      ((if p.1 == k then (p.1, p.2.map f) else p) : String × Option Session).1 = p.1 := by
    intro p; split <;> rfl
  have hg2 : ∀ (p : String × Option Session) (s' : Session),
      ((if p.1 == k then (p.1, p.2.map f) else p) : String × Option Session).2 = some s' →
      ∃ s0, p.2 = some s0 ∧ (s' = f s0 ∨ s' = s0) := by
    intro p s' hq
    split at hq
    · simp only [Option.map_eq_some'] at hq
      obtain ⟨s0, hs0, rfl⟩ := hq
      exact ⟨s0, hs0, Or.inl rfl⟩
    · exact ⟨s', hq, Or.inr rfl⟩
  refine ⟨⟨?_, ?_⟩, ?_⟩
  · show ((m.sessions.map _).map Prod.fst).Nodup
    rw [List.map_map]
    have : m.sessions.map (Prod.fst ∘ fun p =>
        if p.1 == k then (p.1, p.2.map f) else p) = m.sessions.map Prod.fst :=
      List.map_congr_left fun p _ => hg1 p
    rwa [this]
  · intro q hq
    simp only [updateSession, List.mem_map] at hq
    obtain ⟨p, hp, rfl⟩ := hq
    obtain ⟨s0, hs0, hst0⟩ := hentries p hp
    split
    · exact ⟨f s0, by simp [hs0], hstate s0 hst0⟩
    · exact ⟨s0, hs0, hst0⟩
  · show List.Pairwise _ (m.sessions.map _)
    rw [List.pairwise_map]
    refine hpair.imp ?_
    intro a b hR s1 s2 h1 h2 hbindEq
    obtain ⟨t1, ht1, hc1⟩ := hg2 a s1 h1
    obtain ⟨t2, ht2, hc2⟩ := hg2 b s2 h2
    have hb1 : s1.bind = t1.bind := by rcases hc1 with rfl | rfl; exacts [hbind t1, rfl]
    have hp1 : s1.localPort = t1.localPort := by
      rcases hc1 with rfl | rfl; exacts [hport t1, rfl]
    have hb2 : s2.bind = t2.bind := by rcases hc2 with rfl | rfl; exacts [hbind t2, rfl]
    have hp2 : s2.localPort = t2.localPort := by
      rcases hc2 with rfl | rfl; exacts [hport t2, rfl]
    rw [hp1, hp2]
    exact hR t1 t2 ht1 ht2 (by rw [← hb1, ← hb2]; exact hbindEq)

theorem MInv_insert (m : ManagerState) (k : String) (s : Session)
    (hstate : s.state ≠ SessionState.stopped)
    (hfresh : m.portReservedLocked s.bind s.localPort = false)
    (h : MInv m) : MInv { m with sessions := mapInsert m.sessions k s } := by
  obtain ⟨⟨hnodup, hentries⟩, hpair⟩ := h
  have hres := portReservedLocked_eq_false m s.bind s.localPort hfresh
  have hsub : (mapErase m.sessions k).Sublist m.sessions := List.filter_sublist _
  refine ⟨⟨?_, ?_⟩, ?_⟩
  · unfold mapInsert
    rw [List.map_append, List.nodup_append]
    refine ⟨(hsub.map Prod.fst).nodup hnodup, by simp, ?_⟩
    intro a ha hb
    simp only [List.map_cons, List.map_nil, List.mem_singleton] at hb
    subst hb
    rw [List.mem_map] at ha
    obtain ⟨p, hp, hpa⟩ := ha
    have := (List.mem_filter.mp hp).2
    rw [hpa] at this
    simp at this
  · intro p hp
    unfold mapInsert at hp
    rw [List.mem_append] at hp
    rcases hp with hp | hp
    · exact hentries p (hsub.mem hp)
    · rw [List.mem_singleton] at hp
      subst hp
      exact ⟨s, rfl, hstate⟩
  · unfold noPortClash mapInsert
    rw [List.pairwise_append]
    refine ⟨hpair.sublist hsub, by simp, ?_⟩
    intro a ha b hb
    rw [List.mem_singleton] at hb
    subst hb
    intro s1 s2 h1 h2 hbindEq
    obtain rfl : s = s2 := by simpa using h2
    obtain ⟨s1', hs1', hst1⟩ := hentries a (hsub.mem ha)
    obtain rfl : s1 = s1' := by rw [h1] at hs1'; simpa using hs1'
    intro hports
    exact hres a (hsub.mem ha) s1 h1 hst1 ⟨hbindEq, hports⟩

theorem MInv_startLockSection (avail : Probe) (m : ManagerState) (opts : StartOptions)
    (now : Int) (h : MInv m) :
    MInv (m.startLockSection avail opts now).2 := by
  have halloc : ∀ m1 : ManagerState, MInv m1 →
      MInv (m1.startAllocAndInsert avail opts now (newSessionKey opts.service opts.env)).2 := by
    intro m1 h1
    unfold ManagerState.startAllocAndInsert
    cases hsel : m1.selectPortLocked avail opts with
    | error e => exact h1
    | ok p =>
      simp only []
      refine MInv_insert m1 _ (createdSession opts now p) (by simp [createdSession]) ?_ h1
      have := selectPortLocked_ok_not_reserved avail m1 opts p hsel
      simpa [createdSession] using this
  unfold ManagerState.startLockSection
  simp only []
  split
  · split
    · exact halloc _ (MInv_erase m _ h)
    · exact h
  · exact halloc _ (MInv_erase m _ h)
  · exact halloc m h

theorem MInv_stopRun (m : ManagerState) (key : String) (t : StopTiming) (h : MInv m) :
    MInv (m.stopRun key t).2.2 := by
  have hupd : MInv (updateSession m key fun u => { u with state := SessionState.stopping }) :=
    MInv_updateSession m key _ (fun s => rfl) (fun s => rfl) (fun s _ => by simp) h
  unfold ManagerState.stopRun
  split
  · exact h
  · exact h
  · split
    · exact MInv_erase m key h
    · split
      · exact MInv_erase m key h
      · split
        · split
          · exact MInv_erase _ key hupd
          · simp only [apply_ite Prod.snd, ite_self]
            exact hupd
        · split
          · exact MInv_erase _ key h
          · simp only [apply_ite Prod.snd, ite_self]
            exact h

theorem MInv_waitProcessExit (m : ManagerState) (key exitLine : String) (h : MInv m) :
    MInv (m.waitProcessExit key exitLine) := by
  have hupd : MInv (updateSession m key fun t => t.appendLog exitLine) :=
    MInv_updateSession m key _ (fun s => rfl) (fun s => rfl) (fun s hs => hs) h
  unfold ManagerState.waitProcessExit
  split
  · split
    · exact MInv_erase m key h
    · exact MInv_erase _ key hupd
  · exact h

theorem MInv_step (avail : Probe) (a b : ManagerState) (hstep : MStep avail a b)
    (h : MInv a) : MInv b := by
  cases hstep with
  | startOk opts now s m' heq =>
    have hh := MInv_startLockSection avail a opts now h
    rwa [heq] at hh
  | startErr opts now e m' heq =>
    have hh := MInv_startLockSection avail a opts now h
    rwa [heq] at hh
  | setProcInfo key pid =>
    exact MInv_updateSession a key _ (fun s => rfl) (fun s => rfl) (fun s hs => hs) h
  | failStart key err =>
    exact MInv_updateSession a key _ (fun s => rfl) (fun s => rfl) (fun s _ => by simp) h
  | removeSession key => exact MInv_erase a key h
  | setRunning key =>
    exact MInv_updateSession a key _ (fun s => rfl) (fun s => rfl) (fun s _ => by simp) h
  | stop key t => exact MInv_stopRun a key t h
  | processExit key exitLine => exact MInv_waitProcessExit a key exitLine h
  | appendLine key line =>
    exact MInv_updateSession a key _ (fun s => rfl) (fun s => rfl) (fun s hs => hs) h
  | subscribe key buffer id m' heq =>
    unfold ManagerState.subscribeLogs at heq
    split at heq
    · have hinj := heq
      simp only [Except.ok.injEq, Prod.mk.injEq] at hinj
      obtain ⟨-, rfl⟩ := hinj
      exact MInv_updateSession a key _ (fun s => rfl) (fun s => rfl) (fun s hs => hs) h
    · exact absurd heq (by simp)
  | unsubscribe key id =>
    unfold ManagerState.unsubscribeLogs
    split
    · exact h
    · split
      · exact MInv_updateSession a key _ (fun s => rfl) (fun s => rfl) (fun s hs => hs) h
      · exact h

theorem MInv_reachable (avail : Probe) (m : ManagerState) (h : MReachable avail m) :
    MInv m := by
  induction h with
  | refl =>
    refine ⟨⟨by simp [newManager], ?_⟩, ?_⟩
    · intro p hp; simp [newManager] at hp
    · simp [newManager, noPortClash]
  | tail hab hbc ih => exact MInv_step avail _ _ hbc ih

theorem MInv_distinct_ports (m : ManagerState) (hInv : MInv m) (k1 k2 : String)
    (s1 s2 : Session) (h1 : mapLookup m.sessions k1 = some (some s1))
    (h2 : mapLookup m.sessions k2 = some (some s2)) (hne : k1 ≠ k2)
    (hbind : s1.bind = s2.bind) : s1.localPort ≠ s2.localPort := by
  obtain ⟨-, hpair⟩ := hInv
  have hm1 := mapLookup_mem _ _ _ h1
  have hm2 := mapLookup_mem _ _ _ h2
  have hsymm : Symmetric fun p q : String × Option Session =>
      ∀ s1 s2, p.2 = some s1 → q.2 = some s2 → s1.bind = s2.bind →
        s1.localPort ≠ s2.localPort := by
    intro a b hab u v hu hv hbind'
    exact (hab v u hv hu hbind'.symm).symm
  have hRel := hpair.forall hsymm hm1 hm2
    (fun hc => hne (congrArg Prod.fst hc))
  exact hRel s1 s2 rfl rfl hbind

theorem startLockSection_ok_prior_stopped (avail : Probe) (m : ManagerState)
    (opts : StartOptions) (now : Int) (s : Session) (m' : ManagerState)
    (h : m.startLockSection avail opts now = (Except.ok s, m')) (s0 : Session)
    (hl : mapLookup m.sessions (newSessionKey opts.service opts.env) = some (some s0)) :
    s0.state = SessionState.stopped := by
  unfold ManagerState.startLockSection at h
  simp only [hl] at h
  by_cases hst : s0.state = SessionState.stopped
  · exact hst
  · rw [if_neg (by simpa using hst)] at h
    simp only [Prod.mk.injEq] at h
    exact absurd h.1 (by simp)

theorem startLockSection_ok_decomp (avail : Probe) (m : ManagerState) (opts : StartOptions)
    (now : Int) (s : Session) (m' : ManagerState)
    (h : m.startLockSection avail opts now = (Except.ok s, m')) :
    ∃ (m1 : ManagerState) (p : Int),
      (m1 = m ∨
        m1 = { m with sessions := mapErase m.sessions (newSessionKey opts.service opts.env) })
      ∧ s = createdSession opts now p
      ∧ m' = { m1 with
          sessions := mapInsert m1.sessions (newSessionKey opts.service opts.env) s } := by
  obtain ⟨m1, hm1, halloc⟩ := startLockSection_ok avail m opts now s m' h
  obtain ⟨p, hsel, hs, hm'⟩ := startAllocAndInsert_ok avail m1 opts now _ s m' halloc
  exact ⟨m1, p, hm1, hs, hm'⟩

/-- C2: in every reachable manager state, no two sessions present in the
map whose state is not `Stopped` share the same `(bind, local port)` pair
(invariant I1); and two back-to-back `Start` critical sections with
unspecified ports that both succeed select distinct ports on the same
bind, because port selection and insertion of the new `Starting` session
happen in the same critical section. -/
theorem claim_C2_no_port_clash (avail : Probe) (m : ManagerState)
    (h : MReachable avail m) :
    invariantI1 m
    ∧ (∀ opts1 now1 s1 m1 opts2 now2 s2 m2,
        m.startLockSection avail opts1 now1 = (Except.ok s1, m1) →
        m1.startLockSection avail opts2 now2 = (Except.ok s2, m2) →
        opts1.localPort ≤ 0 → opts2.localPort ≤ 0 →
        s1.bind = s2.bind → s1.localPort ≠ s2.localPort) := by
  have hInv := MInv_reachable avail m h
  constructor
  · exact hInv.2.imp (fun hR s1 s2 h1 h2 _ _ => hR s1 s2 h1 h2)
  · intro opts1 now1 s1 m1 opts2 now2 s2 m2 h1 h2 hlp1 hlp2 hbind
    have hInv1 : MInv m1 := MInv_step avail m m1 (MStep.startOk m opts1 now1 s1 m1 h1) hInv
    have hInv2 : MInv m2 := MInv_step avail m1 m2 (MStep.startOk m1 opts2 now2 s2 m2 h2) hInv1
    obtain ⟨m1a, p1, hm1a, hs1, hm1⟩ := startLockSection_ok_decomp avail m opts1 now1 s1 m1 h1
    obtain ⟨m2a, p2, hm2a, hs2, hm2⟩ := startLockSection_ok_decomp avail m1 opts2 now2 s2 m2 h2
    have hl1 : mapLookup m1.sessions (newSessionKey opts1.service opts1.env)
        = some (some s1) := by
      rw [hm1]; exact mapLookup_insert_self _ _ _
    have hkeyne : newSessionKey opts1.service opts1.env
        ≠ newSessionKey opts2.service opts2.env := by
      intro hkeq
      have hstopped := startLockSection_ok_prior_stopped avail m1 opts2 now2 s2 m2 h2 s1
        (by rw [← hkeq]; exact hl1)
      rw [hs1] at hstopped
      simp [createdSession, newSession] at hstopped
    have hl1m2 : mapLookup m2.sessions (newSessionKey opts1.service opts1.env)
        = some (some s1) := by
      rw [hm2, mapLookup_insert_other _ _ _ _ hkeyne]
      rcases hm2a with rfl | heq
      · exact hl1
      · rw [heq]
        simp only []
        rw [mapLookup_erase_other _ _ _ hkeyne]
        exact hl1
    have hl2m2 : mapLookup m2.sessions (newSessionKey opts2.service opts2.env)
        = some (some s2) := by
      rw [hm2]; exact mapLookup_insert_self _ _ _
    exact MInv_distinct_ports m2 hInv2 _ _ s1 s2 hl1m2 hl2m2 hkeyne hbind

/-- Witness for C2 at a concrete instance: two successive starts on the
fresh manager over an all-free probe and range [7000, 7001] take ports
7000 and 7001. -/
theorem claim_C2_no_port_clash_witness :
    (createdSession
        { service := "a", env := "dev", bind := "127.0.0.1", localPort := 0,
          portMin := 7000, portMax := 7001, targetInstanceID := "i-1", remoteHost := "db",
          remotePort := 5432, region := "", profile := "", startupTimeout := 0 } 0
        7000).localPort
      ≠ (createdSession
        { service := "b", env := "dev", bind := "127.0.0.1", localPort := 0,
          portMin := 7000, portMax := 7001, targetInstanceID := "i-1", remoteHost := "db",
          remotePort := 5432, region := "", profile := "", startupTimeout := 0 } 0
        7001).localPort := by
  refine (claim_C2_no_port_clash (fun _ _ => none) newManager
      Relation.ReflTransGen.refl).2
    { service := "a", env := "dev", bind := "127.0.0.1", localPort := 0,
      portMin := 7000, portMax := 7001, targetInstanceID := "i-1", remoteHost := "db",
      remotePort := 5432, region := "", profile := "", startupTimeout := 0 } 0 _
    { newManager with
      sessions := [("a/dev", some (createdSession
        { service := "a", env := "dev", bind := "127.0.0.1", localPort := 0,
          portMin := 7000, portMax := 7001, targetInstanceID := "i-1", remoteHost := "db",
          remotePort := 5432, region := "", profile := "", startupTimeout := 0 } 0 7000))] }
    { service := "b", env := "dev", bind := "127.0.0.1", localPort := 0,
      portMin := 7000, portMax := 7001, targetInstanceID := "i-1", remoteHost := "db",
      remotePort := 5432, region := "", profile := "", startupTimeout := 0 } 0 _
    { newManager with
      sessions := [("a/dev", some (createdSession
        { service := "a", env := "dev", bind := "127.0.0.1", localPort := 0,
          portMin := 7000, portMax := 7001, targetInstanceID := "i-1", remoteHost := "db",
          remotePort := 5432, region := "", profile := "", startupTimeout := 0 } 0 7000)),
        ("b/dev", some (createdSession
        { service := "b", env := "dev", bind := "127.0.0.1", localPort := 0,
          portMin := 7000, portMax := 7001, targetInstanceID := "i-1", remoteHost := "db",
          remotePort := 5432, region := "", profile := "", startupTimeout := 0 } 0 7001))] }
    rfl rfl (by norm_num) (by norm_num) rfl

theorem sublist_flatMap (f : String × Option Session → List (String × Nat))
    {l1 l2 : SessionMap} (h : l1.Sublist l2) :
    (l1.flatMap f).Sublist (l2.flatMap f) := by
  induction h with
  | slnil => simp
  | cons a h ih =>
    rw [List.flatMap_cons]
    exact ih.trans (List.sublist_append_right _ _)
  | cons₂ a h ih =>
    rw [List.flatMap_cons, List.flatMap_cons]
    exact ih.append_left _

theorem flatMap_sublist_pointwise (f g : String × Option Session → List (String × Nat))
    (l : SessionMap) (h : ∀ a ∈ l, (f a).Sublist (g a)) :
    (l.flatMap f).Sublist (l.flatMap g) := by
  induction l with
  | nil => simp
  | cons a t ih =>
    rw [List.flatMap_cons, List.flatMap_cons]
    exact (h a (by simp)).append (ih fun x hx => h x (List.mem_cons_of_mem a hx))

theorem updateSession_keys (m : ManagerState) (k : String) (f : Session → Session) :
    (updateSession m k f).sessions.map Prod.fst = m.sessions.map Prod.fst := by
  show (m.sessions.map _).map Prod.fst = _
  rw [List.map_map]
  refine List.map_congr_left fun p _ => ?_
  show (if (p.1 == k) = true then (p.1, Option.map f p.2) else p).1 = p.1
  split <;> rfl

theorem keysNodup_updateSession (m : ManagerState) (k : String) (f : Session → Session)
    (h : keysNodup m) : keysNodup (updateSession m k f) := by
  unfold keysNodup
  rw [updateSession_keys]
  exact h

theorem keysNodup_erase (m : ManagerState) (k : String) (h : keysNodup m) :
    keysNodup { m with sessions := mapErase m.sessions k } :=
  (((List.filter_sublist _).map Prod.fst).nodup h : _)

theorem keysNodup_insert (m : ManagerState) (k : String) (s : Session) (h : keysNodup m) :
    keysNodup { m with sessions := mapInsert m.sessions k s } := by
  unfold keysNodup mapInsert at *
  rw [List.map_append, List.nodup_append]
  have hsub : (mapErase m.sessions k).Sublist m.sessions := List.filter_sublist _
  refine ⟨(hsub.map Prod.fst).nodup h, by simp, ?_⟩
  intro a ha hb
  simp only [List.map_cons, List.map_nil, List.mem_singleton] at hb
  subst hb
  rw [List.mem_map] at ha
  obtain ⟨p, hp, hpa⟩ := ha
  have hpk := (List.mem_filter.mp hp).2
  rw [hpa] at hpk
  simp at hpk

theorem keysNodup_startLockSection (avail : Probe) (m : ManagerState) (opts : StartOptions)
    (now : Int) (h : keysNodup m) : keysNodup (m.startLockSection avail opts now).2 := by
  have halloc : ∀ m1 : ManagerState, keysNodup m1 →
      keysNodup (m1.startAllocAndInsert avail opts now
        (newSessionKey opts.service opts.env)).2 := by
    intro m1 h1
    unfold ManagerState.startAllocAndInsert
    cases hsel : m1.selectPortLocked avail opts with
    | error e => exact h1
    | ok p => exact keysNodup_insert m1 _ _ h1
  unfold ManagerState.startLockSection
  simp only []
  split
  · split
    · exact halloc _ (keysNodup_erase m _ h)
    · exact h
  · exact halloc _ (keysNodup_erase m _ h)
  · exact halloc m h

theorem keysNodup_stopRun (m : ManagerState) (key : String) (t : StopTiming)
    (h : keysNodup m) : keysNodup (m.stopRun key t).2.2 := by
  have hupd : keysNodup (updateSession m key fun u => { u with state := SessionState.stopping }) :=
    keysNodup_updateSession m key _ h
  unfold ManagerState.stopRun
  split
  · exact h
  · exact h
  · split
    · exact keysNodup_erase m key h
    · split
      · exact keysNodup_erase m key h
      · split
        · split
          · exact keysNodup_erase _ key hupd
          · simp only [apply_ite Prod.snd, ite_self]
            exact hupd
        · split
          · exact keysNodup_erase _ key h
          · simp only [apply_ite Prod.snd, ite_self]
            exact h

theorem keysNodup_waitProcessExit (m : ManagerState) (key exitLine : String)
    (h : keysNodup m) : keysNodup (m.waitProcessExit key exitLine) := by
  unfold ManagerState.waitProcessExit
  split
  · split
    · exact keysNodup_erase m key h
    · exact keysNodup_erase _ key (keysNodup_updateSession m key _ h)
  · exact h

theorem keysNodup_unsubscribeLogs (m : ManagerState) (key : String) (id : Nat)
    (h : keysNodup m) : keysNodup (m.unsubscribeLogs key id) := by
  unfold ManagerState.unsubscribeLogs
  split
  · exact h
  · split
    · exact keysNodup_updateSession m key _ h
    · exact h

theorem keysNodup_envStep (avail : Probe) (a b : ManagerState) (hstep : EnvStep avail a b)
    (h : keysNodup a) : keysNodup b := by
  cases hstep with
  | startOk opts now s m' heq =>
    have hh := keysNodup_startLockSection avail a opts now h
    rwa [heq] at hh
  | startErr opts now e m' heq =>
    have hh := keysNodup_startLockSection avail a opts now h
    rwa [heq] at hh
  | setProcInfo key pid => exact keysNodup_updateSession a key _ h
  | failStart key err => exact keysNodup_updateSession a key _ h
  | removeSession key => exact keysNodup_erase a key h
  | setRunning key => exact keysNodup_updateSession a key _ h
  | stop key t => exact keysNodup_stopRun a key t h
  | processExit key exitLine => exact keysNodup_waitProcessExit a key exitLine h
  | appendLine key line => exact keysNodup_updateSession a key _ h
  | unsubscribe key id => exact keysNodup_unsubscribeLogs a key id h

theorem flatMap_after_map (g : String × Option Session → String × Option Session)
    (f : String × Option Session → List (String × Nat)) (l : SessionMap) :
    (l.map g).flatMap f = l.flatMap (fun a => f (g a)) := by
  induction l with
  | nil => rfl
  | cons a t ih => simp only [List.map_cons, List.flatMap_cons, ih]

theorem subsOf_pair_eq (k : String) (s : Session) :
    subsOf (k, some s) = (s.subscribers.map Prod.fst).map (fun i => (k, i)) := by
  unfold subsOf
  simp only [List.map_map]
  rfl

theorem subPairs_erase (m : ManagerState) (k : String) :
    (subPairs { m with sessions := mapErase m.sessions k }).Sublist (subPairs m) :=
  sublist_flatMap subsOf (List.filter_sublist _)

theorem subPairs_updateSession (m : ManagerState) (k : String) (f : Session → Session)
    (hf : ∀ s, ((f s).subscribers.map Prod.fst).Sublist (s.subscribers.map Prod.fst)) :
    (subPairs (updateSession m k f)).Sublist (subPairs m) := by
  unfold subPairs
  show ((m.sessions.map _).flatMap subsOf).Sublist _
  rw [flatMap_after_map]
  apply flatMap_sublist_pointwise
  intro p _
  show (subsOf (if (p.1 == k) = true then (p.1, p.2.map f) else p)).Sublist (subsOf p)
  split
  · cases hp2 : p.2 with
    | none => exact List.nil_sublist _
    | some s =>
      have hpp : p = (p.1, some s) := by rw [Prod.ext_iff]; exact ⟨rfl, hp2⟩
      rw [congrArg subsOf hpp]
      show (subsOf (p.1, some (f s))).Sublist (subsOf (p.1, some s))
      rw [subsOf_pair_eq, subsOf_pair_eq]
      exact (hf s).map _
  · exact List.Sublist.refl _

theorem appendLog_sub_ids (s : Session) (line : String) :
    (s.appendLog line).subscribers.map Prod.fst = s.subscribers.map Prod.fst := by
  unfold Session.appendLog
  simp only [List.map_map]
  rfl

theorem subPairs_startLockSection (avail : Probe) (m : ManagerState) (opts : StartOptions)
    (now : Int) :
    (subPairs (m.startLockSection avail opts now).2).Sublist (subPairs m) := by
  have halloc : ∀ m1 : ManagerState, (subPairs m1).Sublist (subPairs m) →
      (subPairs (m1.startAllocAndInsert avail opts now
        (newSessionKey opts.service opts.env)).2).Sublist (subPairs m) := by
    intro m1 h1
    unfold ManagerState.startAllocAndInsert
    cases hsel : m1.selectPortLocked avail opts with
    | error e => exact h1
    | ok p =>
      simp only []
      have heq : subPairs { m1 with
          sessions := mapInsert m1.sessions (newSessionKey opts.service opts.env)
            (createdSession opts now p) }
          = subPairs { m1 with
              sessions := mapErase m1.sessions (newSessionKey opts.service opts.env) } := by
        unfold subPairs mapInsert
        rw [List.flatMap_append]
        simp [subsOf, createdSession, newSession]
      rw [heq]
      exact (subPairs_erase m1 _).trans h1
  unfold ManagerState.startLockSection
  simp only []
  split
  · split
    · exact halloc _ (subPairs_erase m _)
    · exact List.Sublist.refl _
  · exact halloc _ (subPairs_erase m _)
  · exact halloc m (List.Sublist.refl _)

theorem subPairs_stopRun (m : ManagerState) (key : String) (t : StopTiming) :
    (subPairs (m.stopRun key t).2.2).Sublist (subPairs m) := by
  have hupd : (subPairs (updateSession m key
      fun u => { u with state := SessionState.stopping })).Sublist (subPairs m) :=
    subPairs_updateSession m key _ (fun s => List.Sublist.refl _)
  unfold ManagerState.stopRun
  split
  · exact List.Sublist.refl _
  · exact List.Sublist.refl _
  · split
    · exact subPairs_erase m key
    · split
      · exact subPairs_erase m key
      · split
        · split
          · exact (subPairs_erase _ key).trans hupd
          · simp only [apply_ite Prod.snd, ite_self]
            exact hupd
        · split
          · exact (subPairs_erase _ key).trans (List.Sublist.refl _)
          · simp only [apply_ite Prod.snd, ite_self]
            exact List.Sublist.refl _

theorem subPairs_waitProcessExit (m : ManagerState) (key exitLine : String) :
    (subPairs (m.waitProcessExit key exitLine)).Sublist (subPairs m) := by
  unfold ManagerState.waitProcessExit
  split
  · split
    · exact subPairs_erase m key
    · exact (subPairs_erase _ key).trans
        (subPairs_updateSession m key _ (fun s => by rw [appendLog_sub_ids]))
  · exact List.Sublist.refl _

theorem subPairs_unsubscribeLogs (m : ManagerState) (key : String) (id : Nat) :
    (subPairs (m.unsubscribeLogs key id)).Sublist (subPairs m) := by
  unfold ManagerState.unsubscribeLogs
  split
  · exact List.Sublist.refl _
  · split
    · refine subPairs_updateSession m key _ (fun s => ?_)
      exact (List.filter_sublist _).map _
    · exact List.Sublist.refl _

theorem subPairs_envStep (avail : Probe) (a b : ManagerState) (hstep : EnvStep avail a b) :
    (subPairs b).Sublist (subPairs a) := by
  cases hstep with
  | startOk opts now s m' heq =>
    have hh := subPairs_startLockSection avail a opts now
    rwa [heq] at hh
  | startErr opts now e m' heq =>
    have hh := subPairs_startLockSection avail a opts now
    rwa [heq] at hh
  | setProcInfo key pid => exact subPairs_updateSession a key _ (fun s => List.Sublist.refl _)
  | failStart key err => exact subPairs_updateSession a key _ (fun s => List.Sublist.refl _)
  | removeSession key => exact subPairs_erase a key
  | setRunning key => exact subPairs_updateSession a key _ (fun s => List.Sublist.refl _)
  | stop key t => exact subPairs_stopRun a key t
  | processExit key exitLine => exact subPairs_waitProcessExit a key exitLine
  | appendLine key line =>
    exact subPairs_updateSession a key _ (fun s => by rw [appendLog_sub_ids])
  | unsubscribe key id => exact subPairs_unsubscribeLogs a key id

theorem mem_subPairs (w : ManagerState) (k' : String) (id' : Nat)
    (h : (k', id') ∈ subPairs w) :
    ∃ s, (k', some s) ∈ w.sessions ∧ id' ∈ s.subscribers.map Prod.fst := by
  unfold subPairs at h
  rw [List.mem_flatMap] at h
  obtain ⟨p, hp, hmem⟩ := h
  cases hp2 : p.2 with
  | none =>
    rw [congrArg subsOf (show p = (p.1, none) by rw [Prod.ext_iff]; exact ⟨rfl, hp2⟩)] at hmem
    cases hmem
  | some s =>
    rw [congrArg subsOf (show p = (p.1, some s) by rw [Prod.ext_iff]; exact ⟨rfl, hp2⟩),
      subsOf_pair_eq, List.mem_map] at hmem
    obtain ⟨i, hi, hpair⟩ := hmem
    injection hpair with ha hb
    subst ha
    subst hb
    have hpp : p = (p.1, some s) := by rw [Prod.ext_iff]; exact ⟨rfl, hp2⟩
    rw [hpp] at hp
    exact ⟨s, hp, hi⟩

theorem mapLookup_of_mem_nodup (l : SessionMap) (h : (l.map Prod.fst).Nodup) (k : String)
    (os : Option Session) (hmem : (k, os) ∈ l) : mapLookup l k = some os := by
  induction l with
  | nil => cases hmem
  | cons hd tl ih =>
    rw [List.map_cons, List.nodup_cons] at h
    rcases List.mem_cons.mp hmem with heq | hmem'
    · rw [← heq]
      unfold mapLookup
      rw [List.find?_cons_of_pos _ (by simp)]
    · have hk : ¬ ((hd.1 == k) = true) := by
        simp only [beq_iff_eq]
        intro hh
        refine h.1 ?_
        rw [hh]
        exact (List.mem_map_of_mem Prod.fst hmem' : (k, os).1 ∈ _)
      unfold mapLookup
      rw [@List.find?_cons_of_neg _ (fun p => p.1 == k) hd tl hk]
      exact ih h.2 hmem'

theorem subPairs_unsubscribe_not_mem (w : ManagerState) (hn : keysNodup w) (k : String)
    (id : Nat) (hid : id ≠ 0) : (k, id) ∉ subPairs (w.unsubscribeLogs k id) := by
  intro hmem
  obtain ⟨s', hmem', hid'⟩ := mem_subPairs _ _ _ hmem
  unfold ManagerState.unsubscribeLogs at hmem'
  split at hmem'
  · next hz => exact hid (by simpa using hz)
  · split at hmem'
    · next s hlk =>
      simp only [updateSession, List.mem_map] at hmem'
      obtain ⟨p, hp, hpe⟩ := hmem'
      by_cases hpk : (p.1 == k) = true
      · rw [if_pos hpk] at hpe
        injection hpe with h1 h2
        cases hp2 : p.2 with
        | none => rw [hp2] at h2; cases h2
        | some t =>
          rw [hp2] at h2
          simp only [Option.map_some'] at h2
          obtain rfl : t.unsubscribeLogs id = s' := by simpa using h2
          unfold Session.unsubscribeLogs at hid'
          simp only [List.mem_map] at hid'
          obtain ⟨q, hq, hq1⟩ := hid'
          have := (List.mem_filter.mp hq).2
          rw [hq1] at this
          simp at this
      · rw [if_neg hpk] at hpe
        subst hpe
        simp at hpk
    · next hlk =>
      have := mapLookup_of_mem_nodup w.sessions hn k (some s') hmem'
      rw [this] at hlk
      exact hlk s' rfl

theorem closeLog_clean (st : UIModel × ManagerState) (h : dashInv st) :
    subPairs (closeLogSubscription st).2 = []
    ∧ keysNodup (closeLogSubscription st).2
    ∧ (closeLogSubscription st).1.logSubID = 0 := by
  obtain ⟨hn, hor⟩ := h
  unfold closeLogSubscription
  refine ⟨?_, ?_, rfl⟩
  · simp only []
    split
    · next hne =>
      rcases hor with hor | ⟨hid, hor⟩
      · have hsub := subPairs_unsubscribeLogs st.2 st.1.logSubKey st.1.logSubID
        rw [hor] at hsub
        exact List.sublist_nil.mp hsub
      · have hsub := subPairs_unsubscribeLogs st.2 st.1.logSubKey st.1.logSubID
        rw [hor] at hsub
        rcases List.sublist_singleton.mp hsub with hnil | hone
        · exact hnil
        · exfalso
          refine subPairs_unsubscribe_not_mem st.2 hn st.1.logSubKey st.1.logSubID hid ?_
          rw [hone]
          simp
    · next hne =>
      rcases hor with hor | ⟨hid, hor⟩
      · exact hor
      · exact absurd hid (by simpa using hne)
  · simp only []
    split
    · exact keysNodup_unsubscribeLogs st.2 _ _ hn
    · exact hn

theorem subPairs_update_single (l : SessionMap) (k : String) (f : Session → Session)
    (s : Session) (hlookup : mapLookup l k = some (some s))
    (hnodup : (l.map Prod.fst).Nodup) (hallempty : ∀ p ∈ l, subsOf p = []) :
    ((l.map fun p => if (p.1 == k) = true then (p.1, p.2.map f) else p).flatMap subsOf)
      = subsOf (k, some (f s)) := by
  induction l with
  | nil => cases hlookup
  | cons hd tl ih =>
    rw [List.map_cons, List.nodup_cons] at hnodup
    by_cases hk : (hd.1 == k) = true
    · have hhd : hd = (k, some s) := by
        unfold mapLookup at hlookup
        rw [@List.find?_cons_of_pos _ (fun p => p.1 == k) hd tl hk] at hlookup
        rw [Prod.ext_iff]
        exact ⟨by simpa using hk, by simpa using hlookup⟩
      have htl : ∀ p ∈ tl, ¬ ((p.1 == k) = true) := by
        intro p hp
        simp only [beq_iff_eq]
        intro hh
        apply hnodup.1
        have hdk : hd.1 = k := by simpa using hk
        rw [hdk, ← hh]
        exact List.mem_map_of_mem Prod.fst hp
      rw [List.map_cons, List.flatMap_cons, if_pos hk]
      have htleq : (tl.map fun p => if (p.1 == k) = true then (p.1, p.2.map f) else p) = tl := by
        have hh : tl.map (fun p => if (p.1 == k) = true then (p.1, p.2.map f) else p)
            = tl.map (fun p => p) :=
          List.map_congr_left fun p hp => by rw [if_neg (htl p hp)]
        simpa using hh
      rw [htleq]
      have htlnil : tl.flatMap subsOf = [] :=
        List.flatMap_eq_nil_iff.mpr fun p hp => hallempty p (List.mem_cons_of_mem hd hp)
      rw [htlnil, List.append_nil, hhd]
      rfl
    · have hhd : subsOf hd = [] := hallempty hd (by simp)
      rw [List.map_cons, List.flatMap_cons, if_neg hk]
      have hlk' : mapLookup tl k = some (some s) := by
        unfold mapLookup at hlookup ⊢
        rwa [@List.find?_cons_of_neg _ (fun p => p.1 == k) hd tl hk] at hlookup
      rw [hhd]
      rw [ih hlk' hnodup.2 (fun p hp => hallempty p (List.mem_cons_of_mem hd hp))]
      rfl

theorem subscribeLogs_clean (w : ManagerState) (hn : keysNodup w)
    (hempty : subPairs w = []) (key : String) (buffer : Int) (id : Nat) (w' : ManagerState)
    (h : w.subscribeLogs key buffer = Except.ok (id, w')) :
    subPairs w' = [(key, id)] ∧ id ≠ 0 ∧ keysNodup w' := by
  unfold ManagerState.subscribeLogs at h
  split at h
  · next s hlk =>
    have hinj := h
    simp only [Except.ok.injEq, Prod.mk.injEq] at hinj
    obtain ⟨hid, rfl⟩ := hinj
    have hallempty : ∀ p ∈ w.sessions, subsOf p = [] :=
      List.flatMap_eq_nil_iff.mp hempty
    have hsubs : s.subscribers = [] := by
      have hmem := mapLookup_mem w.sessions key (some s) hlk
      have := hallempty (key, some s) hmem
      rw [subsOf_pair_eq] at this
      simpa using this
    refine ⟨?_, ?_, keysNodup_updateSession w key _ hn⟩
    · have := subPairs_update_single w.sessions key
        (fun t => (t.subscribeLogs buffer).2) s hlk hn hallempty
      unfold subPairs updateSession
      rw [this, subsOf_pair_eq]
      unfold Session.subscribeLogs
      simp only [hsubs, ← hid]
      simp [hsubs]
      rfl
    · rw [← hid]
      unfold Session.subscribeLogs
      simp
  · exact absurd h (by simp)

/-- C3 (amended): when the map already holds a non-nil session for the key
in a state other than `Stopped`, `Start` fails with
`service/env: session already exists` and the whole manager state — in
particular the map entry — is unchanged.  A nil or `Stopped` entry is
evicted first; if port selection then succeeds the newly created session
replaces it, but if port selection fails `Start` returns that error and
the key is left absent (evicted, not replaced — see the counterexample
for the original claim). -/
theorem claim_C3_existing_session (avail : Probe) (m : ManagerState) (opts : StartOptions)
    (now : Int) :
    (∀ s0, mapLookup m.sessions (newSessionKey opts.service opts.env) = some (some s0) →
        s0.state ≠ SessionState.stopped →
        m.startLockSection avail opts now
          = (Except.error (newSessionKey opts.service opts.env ++ ": session already exists"),
              m))
    ∧ ((mapLookup m.sessions (newSessionKey opts.service opts.env) = some none ∨
        (∃ s0, mapLookup m.sessions (newSessionKey opts.service opts.env) = some (some s0)
          ∧ s0.state = SessionState.stopped)) →
        (∀ p, ManagerState.selectPortLocked avail
              { m with sessions := mapErase m.sessions (newSessionKey opts.service opts.env) }
              opts = Except.ok p →
            ∃ m', m.startLockSection avail opts now
                = (Except.ok (createdSession opts now p), m')
              ∧ mapLookup m'.sessions (newSessionKey opts.service opts.env)
                = some (some (createdSession opts now p)))
        ∧ (∀ e, ManagerState.selectPortLocked avail
              { m with sessions := mapErase m.sessions (newSessionKey opts.service opts.env) }
              opts = Except.error e →
            m.startLockSection avail opts now
              = (Except.error (newSessionKey opts.service opts.env
                    ++ ": failed to allocate local port: " ++ e),
                  { m with
                    sessions := mapErase m.sessions (newSessionKey opts.service opts.env) })
              ∧ mapLookup (mapErase m.sessions (newSessionKey opts.service opts.env))
                  (newSessionKey opts.service opts.env) = none)) := by
  constructor
  · intro s0 hl hst
    unfold ManagerState.startLockSection
    simp only [hl]
    rw [if_neg (by simpa using hst)]
    simp only [Prod.mk.injEq, toString_string, String.empty_append, String.append_empty,
      String.append_assoc]
  · intro hev
    constructor
    · intro p hsel
      have halloc : ManagerState.startAllocAndInsert avail
          { m with sessions := mapErase m.sessions (newSessionKey opts.service opts.env) }
          opts now (newSessionKey opts.service opts.env)
          = (Except.ok (createdSession opts now p),
              { m with
                sessions :=
                  mapInsert (mapErase m.sessions (newSessionKey opts.service opts.env))
                    (newSessionKey opts.service opts.env) (createdSession opts now p) }) := by
        unfold ManagerState.startAllocAndInsert
        rw [hsel]
      refine ⟨{ m with
          sessions :=
            mapInsert (mapErase m.sessions (newSessionKey opts.service opts.env))
              (newSessionKey opts.service opts.env) (createdSession opts now p) }, ?_, ?_⟩
      · unfold ManagerState.startLockSection
        rcases hev with hl | ⟨s0, hl, hst⟩
        · simp only [hl]
          exact halloc
        · simp only [hl]
          rw [if_pos (by simpa using hst)]
          exact halloc
      · exact mapLookup_insert_self _ _ _
    · intro e hsel
      have halloc := startAllocAndInsert_err avail
        { m with sessions := mapErase m.sessions (newSessionKey opts.service opts.env) }
        opts now (newSessionKey opts.service opts.env) e hsel
      constructor
      · unfold ManagerState.startLockSection
        rcases hev with hl | ⟨s0, hl, hst⟩
        · simp only [hl]
          rw [halloc]
          simp only [Prod.mk.injEq, toString_string, String.empty_append, String.append_empty,
            String.append_assoc]
        · simp only [hl]
          rw [if_pos (by simpa using hst)]
          rw [halloc]
          simp only [Prod.mk.injEq, toString_string, String.empty_append, String.append_empty,
            String.append_assoc]
      · exact mapLookup_erase_self _ _
/-- C3 counterexample to the claim as stated: with a `Stopped` entry for
`svc/dev` and a probe that reports the requested port busy, `Start` evicts
the entry but does not replace it — the key ends up absent from the map
while `Start` fails with the port error, contradicting "it is evicted and
replaced by the newly created session". -/
theorem claim_C3_counterexample :
    (ManagerState.startLockSection (fun _ _ => some "address in use")
        { newManager with
          sessions := [("svc/dev", some { newSession "svc" "dev" with
            state := SessionState.stopped })] }
        { service := "svc", env := "dev", bind := "127.0.0.1", localPort := 5500,
          portMin := 0, portMax := 0, targetInstanceID := "i-1", remoteHost := "db",
          remotePort := 5432, region := "", profile := "", startupTimeout := 0 } 0).1
      = Except.error "svc/dev: failed to allocate local port: address in use"
    ∧ mapLookup (ManagerState.startLockSection (fun _ _ => some "address in use")
        { newManager with
          sessions := [("svc/dev", some { newSession "svc" "dev" with
            state := SessionState.stopped })] }
        { service := "svc", env := "dev", bind := "127.0.0.1", localPort := 5500,
          portMin := 0, portMax := 0, targetInstanceID := "i-1", remoteHost := "db",
          remotePort := 5432, region := "", profile := "", startupTimeout := 0 } 0).2.sessions
        "svc/dev"
      = none := ⟨rfl, rfl⟩

/-- Witness for C3 at a concrete instance: a `Starting` entry makes `Start`
fail with `session already exists` and leaves the state unchanged. -/
theorem claim_C3_existing_session_witness :
    ManagerState.startLockSection (fun _ _ => none)
        { newManager with sessions := [("svc/dev", some (newSession "svc" "dev"))] }
        { service := "svc", env := "dev", bind := "127.0.0.1", localPort := 0,
          portMin := 0, portMax := 0, targetInstanceID := "i-1", remoteHost := "db",
          remotePort := 5432, region := "", profile := "", startupTimeout := 0 } 0
      = (Except.error (newSessionKey "svc" "dev" ++ ": session already exists"),
          { newManager with sessions := [("svc/dev", some (newSession "svc" "dev"))] }) :=
  (claim_C3_existing_session (fun _ _ => none)
      { newManager with sessions := [("svc/dev", some (newSession "svc" "dev"))] }
      { service := "svc", env := "dev", bind := "127.0.0.1", localPort := 0,
        portMin := 0, portMax := 0, targetInstanceID := "i-1", remoteHost := "db",
        remotePort := 5432, region := "", profile := "", startupTimeout := 0 } 0).1
    (newSession "svc" "dev") rfl (by decide)

/-- C1: port selection in `Manager.Start`.  With no caller-supplied port
(`LocalPort ≤ 0`) the selected port is the smallest `p` of the effective
range `[min, max]` that no active (non-Stopped) session holds on this bind
and that the availability probe reports bindable; if no port of the range
qualifies, selection fails with the range-exhausted error.  A
caller-supplied port is selected exactly when it is neither held by an
active session nor reported busy, and otherwise selection fails.  Either
failure makes `Start` fail with the `failed to allocate local port` error,
and on success the created session carries the selected port. -/
theorem claim_C1_port_selection (avail : Probe) (m : ManagerState) (opts : StartOptions) :
    (opts.localPort ≤ 0 → m.effectivePortMin opts ≤ m.effectivePortMax opts →
      ((∀ p, m.selectPortLocked avail opts = Except.ok p ↔
          (m.effectivePortMin opts ≤ p ∧ p ≤ m.effectivePortMax opts ∧
            portFree avail m opts.bind p ∧
            ∀ q, m.effectivePortMin opts ≤ q → q < p → ¬ portFree avail m opts.bind q))
        ∧ ((∀ p, m.effectivePortMin opts ≤ p → p ≤ m.effectivePortMax opts →
              ¬ portFree avail m opts.bind p) →
            m.selectPortLocked avail opts = Except.error
              ("no free port available on " ++ opts.bind ++ " in range "
                ++ toString (m.effectivePortMin opts) ++ "-"
                ++ toString (m.effectivePortMax opts)))))
    ∧ (0 < opts.localPort →
        ((m.selectPortLocked avail opts = Except.ok opts.localPort ↔
            portFree avail m opts.bind opts.localPort)
          ∧ (¬ portFree avail m opts.bind opts.localPort →
              ∃ e, m.selectPortLocked avail opts = Except.error e)))
    ∧ (∀ now key e, m.selectPortLocked avail opts = Except.error e →
        (m.startAllocAndInsert avail opts now key).1
          = Except.error (key ++ ": failed to allocate local port: " ++ e))
    ∧ (∀ now key p, m.selectPortLocked avail opts = Except.ok p →
        ∃ s m', m.startAllocAndInsert avail opts now key = (Except.ok s, m')
          ∧ s.localPort = p) := by
  refine ⟨?_, ?_, ?_, ?_⟩
  · intro hlp hrange
    have hgt : ¬ (opts.localPort > 0) := by omega
    have hcast : ((m.effectivePortMax opts - m.effectivePortMin opts).toNat : Int)
        = m.effectivePortMax opts - m.effectivePortMin opts :=
      Int.toNat_of_nonneg (by omega)
    constructor
    · intro p
      unfold ManagerState.selectPortLocked
      rw [if_neg hgt, if_neg (by omega)]
      cases hscan : scanPorts avail m opts.bind (m.effectivePortMin opts)
          ((m.effectivePortMax opts - m.effectivePortMin opts).toNat + 1) with
      | some p' =>
        rw [scanPorts_some_iff] at hscan
        constructor
        · intro h
          obtain rfl : p' = p := by simpa using h
          obtain ⟨h1, h2, h3, h4⟩ := hscan
          push_cast at h2
          exact ⟨h1, by omega, h3, h4⟩
        · rintro ⟨h1, h2, h3, h4⟩
          obtain ⟨g1, g2, g3, g4⟩ := hscan
          have : p' = p := by
            rcases lt_trichotomy p' p with hlt | heq | hgt'
            · exact absurd g3 (h4 p' g1 hlt)
            · exact heq
            · push_cast at g2
              exact absurd h3 (g4 p h1 hgt')
          simp [this]
      | none =>
        rw [scanPorts_none_iff] at hscan
        constructor
        · intro h; exact absurd h (by simp)
        · rintro ⟨h1, h2, h3, -⟩
          exact absurd h3 (hscan p h1 (by push_cast; omega))
    · intro hnone
      unfold ManagerState.selectPortLocked
      rw [if_neg hgt, if_neg (by omega)]
      have hscan : scanPorts avail m opts.bind (m.effectivePortMin opts)
          ((m.effectivePortMax opts - m.effectivePortMin opts).toNat + 1) = none := by
        rw [scanPorts_none_iff]
        intro q h1 h2
        push_cast at h2
        exact hnone q h1 (by omega)
      rw [hscan]
      simp only [toString_string, String.empty_append, String.append_empty,
        String.append_assoc]
  · intro hlp
    have hgt : opts.localPort > 0 := hlp
    constructor
    · unfold ManagerState.selectPortLocked
      rw [if_pos hgt]
      cases hres : m.portReservedLocked opts.bind opts.localPort with
      | true =>
        rw [if_pos rfl]
        constructor
        · intro h; exact absurd h (by simp)
        · rintro ⟨hfree, -⟩; rw [hres] at hfree; cases hfree
      | false =>
        rw [if_neg (by simp)]
        cases havail : avail opts.bind opts.localPort with
        | none => simp [portFree, hres, havail]
        | some e =>
          constructor
          · intro h; exact absurd h (by simp)
          · rintro ⟨-, hfree⟩; rw [havail] at hfree; cases hfree
    · intro hnotfree
      unfold ManagerState.selectPortLocked
      rw [if_pos hgt]
      cases hres : m.portReservedLocked opts.bind opts.localPort with
      | true => rw [if_pos rfl]; exact ⟨_, rfl⟩
      | false =>
        rw [if_neg (by simp)]
        cases havail : avail opts.bind opts.localPort with
        | none => exact absurd ⟨hres, havail⟩ hnotfree
        | some e => exact ⟨e, rfl⟩
  · intro now key e h
    unfold ManagerState.startAllocAndInsert
    rw [h]
    simp only [toString_string, String.empty_append, String.append_empty,
      String.append_assoc]
  · intro now key p h
    unfold ManagerState.startAllocAndInsert
    rw [h]
    exact ⟨_, _, rfl, by simp [createdSession]⟩

/-- Witness for C1 at a concrete instance: an all-free probe over the
fresh manager selects the range minimum. -/
theorem claim_C1_port_selection_witness :
    ManagerState.selectPortLocked (fun _ _ => none) newManager
      { service := "svc", env := "dev", bind := "127.0.0.1", localPort := 0,
        portMin := 7000, portMax := 7010, targetInstanceID := "i-1",
        remoteHost := "db", remotePort := 5432, region := "", profile := "",
        startupTimeout := 0 } = Except.ok 7000 := by
  have h := (claim_C1_port_selection (fun _ _ => none) newManager
    { service := "svc", env := "dev", bind := "127.0.0.1", localPort := 0,
      portMin := 7000, portMax := 7010, targetInstanceID := "i-1",
      remoteHost := "db", remotePort := 5432, region := "", profile := "",
      startupTimeout := 0 }).1 (by norm_num) (by norm_num [ManagerState.effectivePortMin,
        ManagerState.effectivePortMax, newManager])
  exact (h.1 7000).mpr ⟨by norm_num [ManagerState.effectivePortMin, newManager],
    by norm_num [ManagerState.effectivePortMin, ManagerState.effectivePortMax, newManager],
    ⟨rfl, rfl⟩,
    by
      intro q h1 h2
      norm_num [ManagerState.effectivePortMin, newManager] at h1
      omega⟩

theorem startErrorWithLogs_prefix (m : ManagerState) (key e : String) :
    ∃ rest, m.startErrorWithLogs key e = key ++ ": " ++ rest := by
  unfold ManagerState.startErrorWithLogs
  rcases hml : mapLookup m.sessions key with _ | (_ | s)
  · refine ⟨"failed to start session: " ++ e, ?_⟩
    simp only [hml, List.length_nil, beq_self_eq_true, if_true]
    simp only [toString_string, String.empty_append, String.append_empty, String.append_assoc]
    congr 1
  · refine ⟨"failed to start session: " ++ e, ?_⟩
    simp only [hml, List.length_nil, beq_self_eq_true, if_true]
    simp only [toString_string, String.empty_append, String.append_empty, String.append_assoc]
    congr 1
  · by_cases hlen : (s.lastLogs 20).length = 0
    · refine ⟨"failed to start session: " ++ e, ?_⟩
      simp only [hml, hlen, beq_self_eq_true, if_true]
      simp only [toString_string, String.empty_append, String.append_empty, String.append_assoc]
      congr 1
    · refine ⟨"failed to start session: " ++ e ++ "\nrecent logs:\n"
        ++ String.intercalate "\n" (s.lastLogs 20), ?_⟩
      have hb : ((s.lastLogs 20).length == 0) = false := by simpa using hlen
      simp only [hml, hb, Bool.false_eq_true, if_false]
      simp only [toString_string, String.empty_append, String.append_empty, String.append_assoc]
      congr 1

theorem readinessError_prefix (key : String) (o : ReadyObservation) :
    ∃ rest, readinessError key o = key ++ ": " ++ rest := by
  cases o with
  | timedOut =>
    refine ⟨"timed out waiting for local port readiness", ?_⟩
    simp only [readinessError, toString_string, String.empty_append, String.append_empty, String.append_assoc]
    congr 1
  | sessionGone =>
    refine ⟨"session no longer exists", ?_⟩
    simp only [readinessError, toString_string, String.empty_append, String.append_empty, String.append_assoc]
    congr 1
  | sessionError lastErr =>
    by_cases hle : lastErr = ""
    · refine ⟨"aws process exited before readiness", ?_⟩
      simp only [readinessError, hle, beq_self_eq_true, if_true]
      simp only [toString_string, String.empty_append, String.append_empty, String.append_assoc]
      congr 1
    · refine ⟨lastErr, ?_⟩
      have hb : (lastErr == "") = false := by simpa using hle
      simp only [readinessError, hb, Bool.false_eq_true, if_false]
      simp only [toString_string, String.empty_append, String.append_empty, String.append_assoc]
  | sessionStopped =>
    refine ⟨"session stopped before readiness", ?_⟩
    simp only [readinessError, toString_string, String.empty_append, String.append_empty, String.append_assoc]
    congr 1

/-- C7 (amended): every error `Manager.Start` returns once the session key
has been formed — port allocation, pipe and spawn failures, readiness
failures with or without a trailing cleanup error — carries the
`service/env: ` prefix; the two InvalidArgs validation failures (and the
nil-manager error) are produced before the key exists and carry no prefix,
as the counterexample shows. -/
theorem claim_C7_start_error_prefix (m : ManagerState) (service env : String)
    (f : StartFailure) :
    ∃ rest, m.startFailureMessage (newSessionKey service env) f
      = newSessionKey service env ++ ": " ++ rest := by
  cases f with
  | allocFailed e =>
    refine ⟨"failed to allocate local port: " ++ e, ?_⟩
    simp only [ManagerState.startFailureMessage, toString_string, String.empty_append, String.append_empty, String.append_assoc]
    congr 1
  | stdoutPipeFailed e => exact startErrorWithLogs_prefix m _ e
  | stderrPipeFailed e => exact startErrorWithLogs_prefix m _ e
  | spawnFailed e => exact startErrorWithLogs_prefix m _ e
  | notReady o cleanupErr =>
    obtain ⟨r, hr⟩ :=
      startErrorWithLogs_prefix m (newSessionKey service env)
        (readinessError (newSessionKey service env) o)
    cases cleanupErr with
    | none => exact ⟨r, by simpa [ManagerState.startFailureMessage] using hr⟩
    | some stopErr =>
      refine ⟨r ++ "\ncleanup error: " ++ stopErr, ?_⟩
      simp only [ManagerState.startFailureMessage, hr]
      simp only [toString_string, String.empty_append, String.append_empty, String.append_assoc]

/-- C7 counterexample: a `Start` with a missing env fails validation with
`service and env are required`, a message that does not begin with the
session key prefix (`svc/: ` for this call), refuting the claim that every
`Start` error — including the InvalidArgs ones — carries the prefix. -/
theorem claim_C7_counterexample :
    validateStartOptions
        { service := "svc", env := "", bind := "", localPort := 0, portMin := 0,
          portMax := 0, targetInstanceID := "i-1", remoteHost := "db", remotePort := 5432,
          region := "", profile := "", startupTimeout := 0 }
        = some "service and env are required"
      ∧ ∀ rest, "service and env are required" ≠ newSessionKey "svc" "" ++ ": " ++ rest := by
  constructor
  · rfl
  · intro rest h
    have hd := congrArg String.data h
    simp [newSessionKey, String.data_append] at hd

/-- C10: after validation passes, `Manager.Start` replaces an empty bind
with `127.0.0.1` and a non-positive startup timeout with the manager
default (15 s for `NewManager`) before port selection and spawning, so the
created session's bind is never empty and the readiness wait is bounded by
a positive timeout. -/
theorem claim_C10_start_defaults (m : ManagerState) (opts : StartOptions)
    (_hvalid : validateStartOptions opts = none) :
    (m.normalizeStartOptions opts).bind
        = (if opts.bind = "" then "127.0.0.1" else opts.bind)
      ∧ (m.normalizeStartOptions opts).bind ≠ ""
      ∧ (m.normalizeStartOptions opts).startupTimeout
        = (if opts.startupTimeout ≤ 0 then m.defaultStartWait else opts.startupTimeout)
      ∧ (newManager.normalizeStartOptions opts).startupTimeout
        = (if opts.startupTimeout ≤ 0 then 15 * 1000000000 else opts.startupTimeout)
      ∧ 0 < (newManager.normalizeStartOptions opts).startupTimeout
      ∧ (∀ avail now s m',
          ManagerState.startLockSection avail m (m.normalizeStartOptions opts) now
              = (Except.ok s, m') →
            s.bind = (m.normalizeStartOptions opts).bind ∧ s.bind ≠ "") := by
  have hnorm : ∀ mm : ManagerState,
      (mm.normalizeStartOptions opts).bind
          = (if opts.bind = "" then "127.0.0.1" else opts.bind)
        ∧ (mm.normalizeStartOptions opts).startupTimeout
          = (if opts.startupTimeout ≤ 0 then mm.defaultStartWait else opts.startupTimeout) := by
    intro mm
    unfold ManagerState.normalizeStartOptions
    by_cases hb : opts.bind = "" <;> by_cases hts : opts.startupTimeout ≤ 0 <;>
      simp [hb, hts]
  obtain ⟨hb1, ht1⟩ := hnorm m
  obtain ⟨hb2, ht2⟩ := hnorm newManager
  have hbindNe : (m.normalizeStartOptions opts).bind ≠ "" := by
    rw [hb1]; split
    · decide
    · next hb => exact hb
  refine ⟨hb1, hbindNe, ht1, ?_, ?_, ?_⟩
  · simpa [newManager] using ht2
  · rw [ht2]; split
    · norm_num [newManager]
    · next hts => omega
  · intro avail now s m' h
    obtain ⟨m1, _, halloc⟩ :=
      startLockSection_ok avail m (m.normalizeStartOptions opts) now s m' h
    obtain ⟨port, _, rfl, _⟩ :=
      startAllocAndInsert_ok avail m1 (m.normalizeStartOptions opts) now _ s m' halloc
    exact ⟨rfl, by simpa [createdSession] using hbindNe⟩

theorem chan_consumeOne_join (c : Chan) :
    c.consumeOne.consumed ++ c.consumeOne.pending = c.consumed ++ c.pending := by
  unfold Chan.consumeOne
  cases hc : c.pending with
  | nil => simp [hc]
  | cons a t => simp

theorem logReachable_sublist (st : Session × List String) (h : LogReachable st) :
    ∀ id c, (id, c) ∈ st.1.subscribers → (c.consumed ++ c.pending).Sublist st.2 := by
  obtain ⟨s0, hq, hsteps⟩ := h
  induction hsteps with
  | refl =>
    intro id c hmem
    obtain ⟨hp, hc⟩ := hq (id, c) hmem
    simp only [] at hp hc
    simp [hp, hc]
  | tail hab hbc ih =>
    intro id ch hmem
    cases hbc with
    | append s tr line =>
      simp only [Session.appendLog, List.mem_map] at hmem
      obtain ⟨p, hp, hpe⟩ := hmem
      injection hpe with h1 h2
      subst h1
      subst h2
      have hold := ih p.1 p.2 hp
      by_cases hlt : p.2.pending.length < p.2.cap
      · have hch : chanTrySend p.2 line = { p.2 with pending := p.2.pending ++ [line] } := by
          unfold chanTrySend; rw [if_pos hlt]
        rw [hch]
        simp only []
        rw [← List.append_assoc]
        exact hold.append (List.Sublist.refl _)
      · have hch : chanTrySend p.2 line = p.2 := by
          unfold chanTrySend; rw [if_neg hlt]
        rw [hch]
        exact hold.trans (List.sublist_append_left tr [line])
    | subscribe s tr buffer =>
      simp only [Session.subscribeLogs, List.mem_append, List.mem_singleton] at hmem
      rcases hmem with hmem | hmem
      · exact ih id ch hmem
      · injection hmem with h1 h2
        subst h1
        subst h2
        simp
    | unsubscribe s tr iid =>
      simp only [Session.unsubscribeLogs, List.mem_filter] at hmem
      exact ih id ch hmem.1
    | consume s tr iid =>
      simp only [Session.consumeOne, List.mem_map] at hmem
      obtain ⟨p, hp, hpe⟩ := hmem
      have hold := ih p.1 p.2 hp
      by_cases hid : (p.1 == iid) = true
      · rw [if_pos hid] at hpe
        injection hpe with h1 h2
        subst h1
        subst h2
        rw [chan_consumeOne_join]
        exact hold
      · rw [if_neg hid] at hpe
        have h1 : p.1 = id := congrArg Prod.fst hpe
        have h2 : p.2 = ch := congrArg Prod.snd hpe
        subst h1
        subst h2
        exact hold

/-- C6: `Session.AppendLog` appends the line to the ring buffer and
delivers it to every registered subscriber with spare buffer capacity; a
full subscriber only drops the line (its channel is unchanged and every
other subscriber still receives it, the append completing regardless);
and along any trace of appends, subscriptions and receives, each
subscriber's received-then-buffered lines form a sublist of the append
sequence — a subsequence, never reordered. -/
theorem claim_C6_append_log_fanout (s : Session) (line : String) :
    (s.appendLog line).logBuf = s.logBuf.append line
    ∧ (∀ id c, (id, c) ∈ s.subscribers → c.pending.length < c.cap →
        (id, { c with pending := c.pending ++ [line] }) ∈ (s.appendLog line).subscribers)
    ∧ (∀ id c, (id, c) ∈ s.subscribers → c.cap ≤ c.pending.length →
        (id, c) ∈ (s.appendLog line).subscribers)
    ∧ (∀ st : Session × List String, LogReachable st →
        ∀ id c, (id, c) ∈ st.1.subscribers → (c.consumed ++ c.pending).Sublist st.2) := by
  refine ⟨rfl, ?_, ?_, ?_⟩
  · intro id c hmem hlt
    have h := List.mem_map_of_mem (fun p => (p.1, chanTrySend p.2 line)) hmem
    simpa [Session.appendLog, chanTrySend, hlt] using h
  · intro id c hmem hge
    have h := List.mem_map_of_mem (fun p => (p.1, chanTrySend p.2 line)) hmem
    simpa [Session.appendLog, chanTrySend, Nat.not_lt.mpr hge] using h
  · exact logReachable_sublist

/-- Witness for C6 at a concrete instance: one subscriber with room
receives the line, a zero-capacity subscriber drops it. -/
theorem claim_C6_append_log_fanout_witness :
    ((1 : Nat), ({ cap := 2, pending := ["x"], consumed := [] } : Chan)) ∈
      (Session.appendLog
        { newSession "svc" "dev" with
          subscribers := [(1, { cap := 2, pending := [], consumed := [] }),
                          (2, { cap := 0, pending := [], consumed := [] })] } "x").subscribers
    ∧ ((2 : Nat), ({ cap := 0, pending := [], consumed := [] } : Chan)) ∈
      (Session.appendLog
        { newSession "svc" "dev" with
          subscribers := [(1, { cap := 2, pending := [], consumed := [] }),
                          (2, { cap := 0, pending := [], consumed := [] })] } "x").subscribers := by
  constructor
  · exact ((claim_C6_append_log_fanout _ "x").2.1 1
      { cap := 2, pending := [], consumed := [] } (by simp) (by decide))
  · exact ((claim_C6_append_log_fanout _ "x").2.2.1 2
      { cap := 0, pending := [], consumed := [] } (by simp) (by decide))

/-- C5 (amended): `Manager.Stop` on a session already in `Stopping` leaves
the state unchanged (the `Stopping` transition is not re-applied) but does
issue the interrupt again — the interrupt call is unconditional once a
child process exists; the platform adapters treat an already-exited
process as success, so the repeat is harmless.  It then waits: if the
process-wait task flips the session to `Stopped` within the stop window
and the port is released in time, Stop returns success having sent
exactly one interrupt and no kill. -/
theorem claim_C5_stop_on_stopping (m : ManagerState) (key : String) (s : Session)
    (t : StopTiming) (hl : mapLookup m.sessions key = some (some s))
    (hst : s.state = SessionState.stopping) (hcmd : s.hasCmd = true) :
    (m.stopRun key t).2.2 = m
    ∧ (m.stopRun key t).2.1
        = (if t.stoppedWithinStopWait then [ProcSignal.interrupt]
            else [ProcSignal.interrupt, ProcSignal.kill])
    ∧ (t.stoppedWithinStopWait = true → t.portReleasedWithinStopWait = true →
        (m.stopRun key t).1 = none ∧ (m.stopRun key t).2.1 = [ProcSignal.interrupt]) := by
  have e1 : (s.state == SessionState.stopped) = false := by simp [hst]
  have e2 : (s.state == SessionState.error) = false := by simp [hst]
  have e3 : (s.state != SessionState.stopping) = false := by simp [hst]
  have e4 : (!s.hasCmd) = false := by simp [hcmd]
  obtain ⟨tw, tp, tk, tq⟩ := t
  refine ⟨?_, ?_, ?_⟩
  · unfold ManagerState.stopRun
    simp only [hl, e1, e2, e3, e4, Bool.false_eq_true, if_false]
    cases hloc : decide (s.localPort ≤ 0) <;> cases tw <;> cases tp <;> cases tk <;>
      cases tq <;> simp [hloc]
  · unfold ManagerState.stopRun
    simp only [hl, e1, e2, e3, e4, Bool.false_eq_true, if_false]
    cases hloc : decide (s.localPort ≤ 0) <;> cases tw <;> cases tp <;> cases tk <;>
      cases tq <;> simp [hloc]
  · intro h1 h2
    simp only at h1 h2
    subst h1; subst h2
    unfold ManagerState.stopRun
    simp only [hl, e1, e2, e3, e4, Bool.false_eq_true, if_false]
    simp

/-- C5 counterexample to the claim as stated: `Stop` on a session whose
state is already `Stopping` (with a live child handle) does send an
interrupt — the signal trace of the call is `[interrupt]`, not empty, so
the call does not merely wait. -/
theorem claim_C5_counterexample :
    (ManagerState.stopRun
        { newManager with
          sessions := [("svc/dev", some { newSession "svc" "dev" with
            state := SessionState.stopping, hasCmd := true })] }
        "svc/dev"
        { stoppedWithinStopWait := true, portReleasedWithinStopWait := true,
          stoppedWithinKillWait := true, portReleasedWithinKillWait := true }).2.1
      = [ProcSignal.interrupt]
    ∧ ([ProcSignal.interrupt] : List ProcSignal) ≠ [] := ⟨rfl, by simp⟩

/-- Witness for C5 at the concrete instance of the counterexample state:
the amended description of the call's behaviour. -/
theorem claim_C5_stop_on_stopping_witness :
    (ManagerState.stopRun
        { newManager with
          sessions := [("svc/dev", some { newSession "svc" "dev" with
            state := SessionState.stopping, hasCmd := true })] }
        "svc/dev"
        { stoppedWithinStopWait := true, portReleasedWithinStopWait := true,
          stoppedWithinKillWait := true, portReleasedWithinKillWait := true }).1 = none := by
  have h := claim_C5_stop_on_stopping
    { newManager with
      sessions := [("svc/dev", some { newSession "svc" "dev" with
        state := SessionState.stopping, hasCmd := true })] }
    "svc/dev"
    { newSession "svc" "dev" with state := SessionState.stopping, hasCmd := true }
    { stoppedWithinStopWait := true, portReleasedWithinStopWait := true,
      stoppedWithinKillWait := true, portReleasedWithinKillWait := true }
    rfl rfl rfl
  exact (h.2.2 rfl rfl).1

/-- Witness for C10 at a concrete instance: empty bind and zero timeout
are replaced by the defaults. -/
theorem claim_C10_start_defaults_witness :
    (ManagerState.normalizeStartOptions newManager
        { service := "svc", env := "dev", bind := "", localPort := 0, portMin := 0,
          portMax := 0, targetInstanceID := "i-1", remoteHost := "db", remotePort := 5432,
          region := "", profile := "", startupTimeout := 0 }).bind = "127.0.0.1"
      ∧ 0 < (ManagerState.normalizeStartOptions newManager
        { service := "svc", env := "dev", bind := "", localPort := 0, portMin := 0,
          portMax := 0, targetInstanceID := "i-1", remoteHost := "db", remotePort := 5432,
          region := "", profile := "", startupTimeout := 0 }).startupTimeout := by
  obtain ⟨h1, -, -, -, h5, -⟩ := claim_C10_start_defaults newManager
    { service := "svc", env := "dev", bind := "", localPort := 0, portMin := 0,
      portMax := 0, targetInstanceID := "i-1", remoteHost := "db", remotePort := 5432,
      region := "", profile := "", startupTimeout := 0 } rfl
  exact ⟨by rw [h1]; rfl, h5⟩

theorem dashInv_model (m m' : UIModel) (w : ManagerState)
    (hk : m'.logSubKey = m.logSubKey) (hi : m'.logSubID = m.logSubID)
    (h : dashInv (m, w)) : dashInv (m', w) := by
  obtain ⟨hn, hor⟩ := h
  refine ⟨hn, ?_⟩
  rcases hor with hor | ⟨hid, hor⟩
  · exact Or.inl hor
  · exact Or.inr ⟨by rwa [hi], by rwa [hk, hi]⟩

theorem cycleFocus_logSub (m : UIModel) :
    (m.cycleFocus).logSubKey = m.logSubKey ∧ (m.cycleFocus).logSubID = m.logSubID := by
  unfold UIModel.cycleFocus
  split <;> exact ⟨rfl, rfl⟩

theorem moveSelection_logSub (m : UIModel) (d : Int) :
    (m.moveSelection d).logSubKey = m.logSubKey
    ∧ (m.moveSelection d).logSubID = m.logSubID := by
  unfold UIModel.moveSelection
  split
  · split
    · exact ⟨rfl, rfl⟩
    · exact ⟨rfl, rfl⟩
  · split
    · exact ⟨rfl, rfl⟩
    · exact ⟨rfl, rfl⟩
  · exact ⟨rfl, rfl⟩

theorem ensureLogReader_logSub (m : UIModel) :
    (m.ensureLogReader).logSubKey = m.logSubKey
    ∧ (m.ensureLogReader).logSubID = m.logSubID := by
  unfold UIModel.ensureLogReader
  split
  · exact ⟨rfl, rfl⟩
  · exact ⟨rfl, rfl⟩

theorem dashInv_syncLogs (force : Bool) (st : UIModel × ManagerState) (h : dashInv st) :
    dashInv (syncLogs force st) := by
  obtain ⟨m, w⟩ := st
  have hmw : dashInv (m, w) := h
  unfold syncLogs
  simp only []
  split
  · have hc := closeLog_clean (m, w) hmw
    exact ⟨hc.2.1, Or.inl hc.1⟩
  · next key hkey =>
    split
    · exact hmw
    · split
      · next e he =>
        have hc := closeLog_clean ({ m with logKey := key }, w)
          (dashInv_model m _ w rfl rfl hmw)
        exact ⟨hc.2.1, Or.inl hc.1⟩
      · next lines hl =>
        split
        · have hc := closeLog_clean ({ m with logKey := key, logBuffer := lines }, w)
            (dashInv_model m _ w rfl rfl hmw)
          exact ⟨hc.2.1, Or.inl hc.1⟩
        · split
          · exact dashInv_model m _ w rfl rfl hmw
          · split
            · next e he2 =>
              have hc := closeLog_clean ({ m with logKey := key, logBuffer := lines }, w)
                (dashInv_model m _ w rfl rfl hmw)
              exact ⟨hc.2.1, Or.inl hc.1⟩
            · next subID w2 hsub =>
              have hc := closeLog_clean ({ m with logKey := key, logBuffer := lines }, w)
                (dashInv_model m _ w rfl rfl hmw)
              have hclean := subscribeLogs_clean _ hc.2.1 hc.1 key 64 subID w2 hsub
              exact ⟨hclean.2.2, Or.inr ⟨hclean.2.1, hclean.1⟩⟩

theorem dashInv_sync_ensure (b : Bool) (st : UIModel × ManagerState) (h : dashInv st) :
    dashInv ((syncLogs b st).1.ensureLogReader, (syncLogs b st).2) := by
  have hs := dashInv_syncLogs b st h
  exact dashInv_model (syncLogs b st).1 _ (syncLogs b st).2
    (ensureLogReader_logSub _).1 (ensureLogReader_logSub _).2 hs

theorem dashInv_handleKey (k : String) (st : UIModel × ManagerState) (h : dashInv st) :
    dashInv (handleKey k st).1 := by
  obtain ⟨m, w⟩ := st
  unfold handleKey
  simp only []
  split
  · have hc := closeLog_clean (m, w) h
    exact ⟨hc.2.1, Or.inl hc.1⟩
  · split
    · exact dashInv_sync_ensure true _
        (dashInv_model m _ w (cycleFocus_logSub m).1 (cycleFocus_logSub m).2 h)
    · split
      · exact dashInv_sync_ensure true _
          (dashInv_model m _ w (moveSelection_logSub m 1).1 (moveSelection_logSub m 1).2 h)
      · split
        · exact dashInv_sync_ensure true _
            (dashInv_model m _ w (moveSelection_logSub m (-1)).1
              (moveSelection_logSub m (-1)).2 h)
        · split
          · split
            · exact dashInv_model m _ w rfl rfl h
            · exact dashInv_model m _ w rfl rfl h
          · split
            · split
              · exact dashInv_model m _ w rfl rfl h
              · exact dashInv_model m _ w rfl rfl h
            · split
              · exact dashInv_model m _ w rfl rfl h
              · split
                · split
                  · exact dashInv_sync_ensure true _ (dashInv_model m _ w rfl rfl h)
                  · exact dashInv_sync_ensure true _ (dashInv_model m _ w rfl rfl h)
                · exact h

theorem handleKey_quit (k : String) (st : UIModel × ManagerState) (h : dashInv st)
    (hk : k = "q" ∨ k = "ctrl+c") :
    subPairs (handleKey k st).1.2 = [] ∧ (handleKey k st).2 = true := by
  obtain ⟨m, w⟩ := st
  have hc := closeLog_clean (m, w) h
  rcases hk with rfl | rfl
  · unfold handleKey
    simp only []
    rw [if_pos (by simp)]
    exact ⟨hc.1, rfl⟩
  · unfold handleKey
    simp only []
    rw [if_pos (by simp)]
    exact ⟨hc.1, rfl⟩

theorem dashInv_update (msg : UIMsg) (st : UIModel × ManagerState)
    (hmsg : msgConsistent st.2 msg) (h : dashInv st) : dashInv (update msg st).1 := by
  obtain ⟨m, w⟩ := st
  cases msg with
  | resize wd ht => exact dashInv_model m _ w rfl rfl h
  | key k => exact dashInv_handleKey k (m, w) h
  | refreshTick keys => exact dashInv_syncLogs false _ (dashInv_model m _ w rfl rfl h)
  | connectResult key endpoint err =>
    cases err with
    | some e => exact dashInv_model m _ w rfl rfl h
    | none => exact dashInv_model m _ w rfl rfl h
  | stopResult key err =>
    cases err with
    | some e => exact dashInv_model m _ w rfl rfl h
    | none => exact dashInv_model m _ w rfl rfl h
  | stopAllResult err =>
    cases err with
    | some e => exact dashInv_model m _ w rfl rfl h
    | none => exact dashInv_model m _ w rfl rfl h
  | logLine key subID line closed =>
    unfold update
    simp only []
    split
    · exact h
    · next hguard =>
      have hg : (subID ≠ 0 ∧ subID = m.logSubID) ∧ key = m.logSubKey := by
        simpa using hguard
      split
      · next hclosed =>
        subst hclosed
        refine ⟨h.1, Or.inl ?_⟩
        rcases h.2 with hor | ⟨hid, hor⟩
        · exact hor
        · exfalso
          apply hmsg
          rw [hor, ← hg.1.2, ← hg.2]
          simp
      · exact dashInv_model m _ w rfl rfl h

theorem dashInv_step (avail : Probe) (a b : UIModel × ManagerState)
    (hstep : UIStep avail a b) (h : dashInv a) : dashInv b := by
  cases hstep with
  | dispatch msg hmsg => exact dashInv_update msg a hmsg h
  | world w' hw =>
    refine ⟨keysNodup_envStep avail a.2 w' hw h.1, ?_⟩
    have hsub := subPairs_envStep avail a.2 w' hw
    rcases h.2 with hor | ⟨hid, hor⟩
    · rw [hor] at hsub
      exact Or.inl (List.sublist_nil.mp hsub)
    · rw [hor] at hsub
      rcases List.sublist_singleton.mp hsub with hnil | hone
      · exact Or.inl hnil
      · exact Or.inr ⟨hid, hone⟩

theorem dashInv_reachable (avail : Probe) (st : UIModel × ManagerState)
    (h : UIReachable avail st) : dashInv st := by
  obtain ⟨targets, w0, hw0, hn0, hreach⟩ := h
  induction hreach with
  | refl => exact ⟨hn0, Or.inl hw0⟩
  | tail hab hbc ih => exact dashInv_step avail _ _ hbc ih

/-- C9: in every joint dashboard/manager state reachable by the `ui`
command's Update step function (messages the session side can actually
send, interleaved with manager-side steps) from a fresh model over a
manager with no live subscribers, at most one log subscription is active —
none, or exactly the model's current `(logSubKey, logSubID)`; whenever a
consistent message moves the current subscription, the old id is no longer
subscribed anywhere afterwards (it was unsubscribed before any new
subscribe); and `q` or `ctrl+c` quits having unsubscribed everything. -/
theorem claim_C9_subscription_lifecycle (avail : Probe) (st : UIModel × ManagerState)
    (h : UIReachable avail st) :
    (subPairs st.2 = [] ∨
      (st.1.logSubID ≠ 0 ∧ subPairs st.2 = [(st.1.logSubKey, st.1.logSubID)]))
    ∧ (∀ msg, msgConsistent st.2 msg →
        ((update msg st).1.1.logSubKey, (update msg st).1.1.logSubID)
            ≠ (st.1.logSubKey, st.1.logSubID) →
        (st.1.logSubKey, st.1.logSubID) ∉ subPairs (update msg st).1.2)
    ∧ (∀ k, k = "q" ∨ k = "ctrl+c" →
        subPairs (handleKey k st).1.2 = [] ∧ (handleKey k st).2 = true) := by
  have hd := dashInv_reachable avail st h
  refine ⟨hd.2, ?_, ?_⟩
  · intro msg hmsg hne hmem
    have hd' := dashInv_update msg st hmsg hd
    rcases hd'.2 with hor | ⟨hid, hor⟩
    · rw [hor] at hmem
      cases hmem
    · rw [hor] at hmem
      exact hne (List.mem_singleton.mp hmem).symm
  · intro k hk
    exact handleKey_quit k st hd hk

/-- Witness for C9 at a concrete instance: over the fresh dashboard and a
fresh manager, pressing `q` quits with no subscriber channel left. -/
theorem claim_C9_subscription_lifecycle_witness :
    subPairs (handleKey "q" (newUIModel [], newManager)).1.2 = []
    ∧ (handleKey "q" (newUIModel [], newManager)).2 = true :=
  (claim_C9_subscription_lifecycle (fun _ _ => none) (newUIModel [], newManager)
    ⟨[], newManager, rfl, List.nodup_nil, Relation.ReflTransGen.refl⟩).2.2
    "q" (Or.inl rfl)

end Dbx
